import Mathlib

/-!
Verification development for the SimPy DDoS-mitigation simulation
(`SimPyDDoS.py`).

The Python program is a discrete-event simulation: two generator
processes (`legitimate_user`, `attacker`) emit requests separated by
exponential inter-arrival gaps, a `simpy.Resource` of capacity 1 models
the server, and the `Server` class implements the two admission
policies (`rate_limited_request`, plain acquisition plus
`scale_resources`).  `run_simulation` wires one instance of each
process, runs the event loop until `SIM_TIME`, and reports
`(avg_response_time, processed, dropped)`.

Shallow embedding used here:
* Randomness.  `random.expovariate(lam)` computes `-log(1-u)/lam` for a
  uniform draw `u`.  We model the shared global random stream as an
  explicit function `stream : ℕ → ℚ` of "entropy" values standing for
  the successive nonnegative quantities `-log(1-u)`; `expovariate lam`
  consumes the next entropy value `e` and returns `e / lam` (and fails
  with `ZeroDivisionError` when `lam = 0`, as Python does).  Stream
  values are consumed in the same order as the Python process chains
  consume them.
* Engine.  SimPy's event queue orders events by (time, priority,
  insertion id).  Each timer event (inter-arrival timeout, service
  timeout, process start) triggers a causal chain
  of same-instant actions (resource release, waiter wake-up, metric
  updates, re-sampling); the `step` function below executes one timer
  event together with its whole same-instant chain, in the exact order
  in which the Python code performs the individual actions (see the
  comments on `finishService`).  Ties between distinct timers at the
  same instant are broken by a fixed priority (process-start events
  first, then the legitimate client, then the attacker, then scale
  timers); all concrete runs studied below use streams whose event
  times are pairwise distinct, where this order coincides with SimPy's.
* Errors.  A Python exception (ZeroDivisionError in `expovariate`,
  ValueError for a negative timeout delay) aborts `env.run`; the flag
  `errored` models this, and once it is set the machine halts.
* Fuel.  The event loop is iterated a given number of steps
  (`runFor`); all invariants are proved for every step count.
-/

namespace DDoSSim

/-! ### Configuration constants (module-level constants of the source) -/

def SERVER_INITIAL_CAPACITY : ℕ := 1
def SIM_TIME : ℚ := 50
def RATE_LIMIT : ℕ := 1
def QUEUE_THRESHOLD : ℕ := 3
def SCALING_DURATION : ℚ := 5

/-! ### Data model -/

/-- The two traffic classes / the two generator processes. -/
inductive Who
  | legit
  | attacker
deriving DecidableEq, Repr

/-- The two mitigation scenarios selected by the `scenario` string. -/
inductive Scenario
  | rateLimiting
  | adaptiveScaling
deriving DecidableEq, Repr

/-- Control state of one client process between engine events.
`start` fields record the `start_time` captured by the Python code just
before `server.request()` (the arrival instant). -/
inductive CState
  | start
  | gap (wake : ℚ)
  | queued (arrivedAt : ℚ)
  | inService (finish arrivedAt : ℚ)
deriving DecidableEq, Repr

/-- Observable events, mirroring the `print` statements of the source
(plus `granted`, the instant `simpy` appends a request to
`Resource.users`, and `scaleCheck`, the instant a spawned
`scale_resources` process body runs). -/
inductive Entry
  | arrival (w : Who) (t : ℚ)
  | droppedReq (t : ℚ)
  | granted (w : Who) (t : ℚ)
  | processedReq (w : Who) (t : ℚ)
  | scaleCheck (t : ℚ) (qlen : ℕ)
  | scaleUp (t : ℚ)
  | scaleDown (t : ℚ)
deriving DecidableEq, Repr

/-- Whole simulation state: environment clock, the two processes, the
`simpy.Resource` (`users` = `Resource.count`, `queue` = `Resource.queue`,
`capacity` = `Resource.capacity`), the `Server` bookkeeping fields and
the metric accumulators. -/
structure Sim where
  scenario : Scenario
  userRate : ℚ
  attackRate : ℚ
  scaling : Bool
  stream : ℕ → ℚ
  idx : ℕ
  now : ℚ
  legit : CState
  attacker : CState
  users : ℕ
  queue : List Who
  capacity : ℕ
  baseCapacity : ℕ
  processed : ℕ
  dropped : ℕ
  respTimes : List ℚ
  scaleTimers : List ℚ
  log : List Entry
  finished : Bool
  errored : Bool

def getC (s : Sim) : Who → CState
  | .legit => s.legit
  | .attacker => s.attacker

def setC (s : Sim) (w : Who) (c : CState) : Sim :=
  match w with
  | .legit => { s with legit := c }
  | .attacker => { s with attacker := c }

def rateOf (s : Sim) : Who → ℚ
  | .legit => s.userRate
  | .attacker => s.attackRate

/-- `random.expovariate(lam)` on the next entropy value `e`:
`-log(1-u)/lam`, i.e. `e / lam`; `lam = 0` raises ZeroDivisionError. -/
def expovariate (lam e : ℚ) : Option ℚ :=
  if lam = 0 then none else some (e / lam)

/-- Consume the next value of the global random stream. -/
def draw (s : Sim) : ℚ × Sim :=
  (s.stream s.idx, { s with idx := s.idx + 1 })

/-- A Python exception unwinds `env.run`: the machine halts. -/
def fail (s : Sim) : Sim :=
  { s with errored := true, finished := true }

/-- `yield env.timeout(random.expovariate(rate))` at the top of the
`legitimate_user` / `attacker` loop: sample the next inter-arrival gap
and go to sleep until it elapses.  A negative delay raises ValueError
in `env.timeout`. -/
def sampleGap (w : Who) (s : Sim) : Sim :=
  if s.errored then s else
  let p := draw s
  match expovariate (rateOf p.2 w) p.1 with
  | none => fail p.2
  | some g => if g < 0 then fail p.2 else setC p.2 w (.gap (p.2.now + g))

/-- Body of `Server.process_request` up to its `yield`: sample the
exponential service duration (`random.expovariate(1.0)`) and suspend
until it elapses.  The response time is recorded at completion. -/
def sampleService (w : Who) (arrivedAt : ℚ) (s : Sim) : Sim :=
  if s.errored then s else
  let p := draw s
  match expovariate 1 p.1 with
  | none => fail p.2
  | some d => if d < 0 then fail p.2 else setC p.2 w (.inService (p.2.now + d) arrivedAt)

/-- `with self.server.request() as req: yield req` — `simpy.Resource`
admits immediately when `count < capacity` (appending to `users`),
otherwise the request is appended to the FIFO wait queue.  On immediate
admission the process continues straight into `process_request`. -/
def requestSlot (w : Who) (arrivedAt : ℚ) (s : Sim) : Sim :=
  if s.errored then s else
  if s.users < s.capacity then
    let s1 := { s with users := s.users + 1, log := s.log ++ [.granted w s.now] }
    sampleService w arrivedAt s1
  else
    setC { s with queue := s.queue ++ [w] } w (.queued arrivedAt)

/-- `Server.rate_limited_request`, the part executed when the request
process starts.  Returns the new state and whether the generator
suspended (`false` exactly on the drop branch, which returns without
any `yield`). -/
def rate_limited_request (w : Who) (s : Sim) : Sim × Bool :=
  if w = .legit ∧ RATE_LIMIT ≤ s.users then
    ({ s with dropped := s.dropped + 1, log := s.log ++ [.droppedReq s.now] }, false)
  else
    (requestSlot w s.now s, true)

/-- Body of `Server.scale_resources`: when scaling is enabled and the
wait queue has reached `QUEUE_THRESHOLD`, the scale-up message is
printed (the `scaleUp` entry) and then `self.server.capacity += 1`
executes — but `simpy.Resource.capacity` is a read-only property
(no setter), so the assignment raises `AttributeError` and aborts the
run; the `yield env.timeout(SCALING_DURATION)` on the next line is
never reached and no scale-down is ever scheduled.  Below the
threshold the body only returns.  A `scaleCheck` entry records that
the spawned process body ran. -/
def scale_resources (s : Sim) : Sim :=
  if s.errored then s else
  let s1 := { s with log := s.log ++ [.scaleCheck s.now s.queue.length] }
  if s1.scaling ∧ QUEUE_THRESHOLD ≤ s1.queue.length then
    fail { s1 with log := s1.log ++ [.scaleUp s1.now] }
  else s1

/-- `Resource._trigger_put` after a release: admit queued waiters in
FIFO order while `count < capacity` (each admitted waiter is appended
to `users` immediately; it resumes and samples its service time later
in the same-instant chain).  Returns the admitted waiters in order. -/
def grantLoop : List Who → Sim → Sim × List Who
  | [], s => ({ s with queue := [] }, [])
  | w :: ws, s =>
    if s.users < s.capacity then
      let s1 := { s with users := s.users + 1, log := s.log ++ [.granted w s.now] }
      let r := grantLoop ws s1
      (r.1, w :: r.2)
    else
      ({ s with queue := w :: ws }, [])

/-- Exiting the `with` block: `Resource.release` decrements `count`,
then the wait queue is served. -/
def releaseSlot (s : Sim) : Sim × List Who :=
  grantLoop s.queue { s with users := s.users - 1 }

/-- The waiters admitted during a release resume (in FIFO order) and
each starts `process_request`, sampling its service duration.  Their
`start_time` is the arrival instant stored in their `queued` state. -/
def startAll (ws : List Who) (s : Sim) : Sim :=
  ws.foldl (fun s w =>
    match getC s w with
    | .queued arrivedAt => sampleService w arrivedAt s
    | _ => s) s

/-- Same-instant chain triggered when the service timeout of `w`
fires.  Order of the individual actions follows the SimPy event queue:

* `process_request` resumes: the response time is recorded;
* the parent resumes at the sub-process termination event: the
  processed counter is incremented for Legitimate requests, the `with`
  block exits (`release`; queued waiters are appended to `users` at
  this very instant);
* Rate-Limiting (`rate_limited_request` is a sub-process of the loop):
  the woken waiters sample their service durations first (their
  process-start events are URGENT), then the loop resumes at the
  termination of `rate_limited_request` and samples its next gap;
* Adaptive Scaling (handling is inline in the loop): the loop itself
  continues immediately — it spawns `scale_resources` and samples its
  next gap — then the spawned scale check runs (URGENT), then the
  woken waiters sample their service durations.

When a waiter is actually woken at the completion instant, the order
of the same-instant draws (and the queue length the scale check
observes) is an approximation of SimPy's, which interleaves them
through the Release event's callbacks.  The theorems below that touch
the completion chain either assume an empty wait queue, run streams
under which no completion ever finds a waiter, or state quantities
that are insensitive to the within-instant order. -/
def finishService (w : Who) (s : Sim) : Sim :=
  match getC s w with
  | .inService _ arrivedAt =>
    let s1 := { s with respTimes := s.respTimes ++ [s.now - arrivedAt],
                       log := s.log ++ [.processedReq w s.now] }
    let s2 := if w = .legit then { s1 with processed := s1.processed + 1 } else s1
    let r := releaseSlot s2
    match r.1.scenario with
    | .rateLimiting => sampleGap w (startAll r.2 r.1)
    | .adaptiveScaling => startAll r.2 (scale_resources (sampleGap w r.1))
  | _ => s

/-- Same-instant chain triggered when an inter-arrival timeout fires:
the loop body after `yield env.timeout(...)`. -/
def handleArrival (w : Who) (s : Sim) : Sim :=
  let s1 := { s with log := s.log ++ [Entry.arrival w s.now] }
  match s1.scenario with
  | .rateLimiting =>
    let r := rate_limited_request w s1
    if r.2 then r.1
    else
      -- the drop branch returned without suspending, so the loop
      -- resumes at the same instant and samples its next gap
      sampleGap w r.1
  | .adaptiveScaling => requestSlot w s1.now s1

/-- The kinds of timer events the engine dispatches on. -/
inductive Ev
  | startProc (w : Who)
  | arrival (w : Who)
  | completion (w : Who)
  | scaleReset
deriving DecidableEq, Repr

/-- The pending timer (if any) of one client process. -/
def evOf (w : Who) : CState → Option (ℚ × Ev)
  | .start => some (0, .startProc w)
  | .gap t => some (t, .arrival w)
  | .queued _ => none
  | .inService f _ => some (f, .completion w)

def listMin : List ℚ → Option ℚ
  | [] => none
  | x :: xs => some (xs.foldl min x)

def timerEv (ts : List ℚ) : Option (ℚ × Ev) :=
  (listMin ts).map (fun t => (t, .scaleReset))

/-- SimPy priority: process-start events are URGENT, timeouts NORMAL. -/
def keyOf : Ev → ℕ
  | .startProc _ => 0
  | _ => 1

/-- Earlier time wins; at equal times the URGENT event wins, then the
left argument (insertion order approximation, see module comment). -/
def better : Option (ℚ × Ev) → Option (ℚ × Ev) → Option (ℚ × Ev)
  | none, b => b
  | some a, none => some a
  | some a, some b =>
    if a.1 < b.1 then some a
    else if b.1 < a.1 then some b
    else if keyOf a.2 ≤ keyOf b.2 then some a else some b

/-- The earliest pending event of the whole simulation. -/
def nextEvent (s : Sim) : Option (ℚ × Ev) :=
  better (better (evOf .legit s.legit) (evOf .attacker s.attacker)) (timerEv s.scaleTimers)

/-- Dispatch one timer event (with its whole same-instant chain). -/
def execEvent (t : ℚ) (ev : Ev) (s0 : Sim) : Sim :=
  let s := { s0 with now := t }
  match ev with
  | .startProc w => sampleGap w s
  | .arrival w => handleArrival w s
  | .completion w => finishService w s
  | .scaleReset =>
    -- `scale_resources` would resume after its timeout and execute
    -- `self.server.capacity = self.server_capacity` — the same
    -- read-only-property `AttributeError` as at the scale-up line.
    -- This arm is unreachable anyway: the crash at the scale-up
    -- assignment means no scale timer is ever scheduled.
    fail { s with scaleTimers := s.scaleTimers.erase t }

/-- One iteration of `env.run(until=SIM_TIME)`: pop the earliest event;
events at or after the horizon are not executed (the URGENT stop event
fires first) and the run ends with `env.now = SIM_TIME`. -/
def step (s : Sim) : Sim :=
  if s.finished then s else
  match nextEvent s with
  | none => { s with finished := true }
  | some te =>
    if SIM_TIME ≤ te.1 then { s with now := SIM_TIME, finished := true }
    else execEvent te.1 te.2 s

/-- `run_simulation` before `env.run`: fresh environment, fresh
`Server` (scaling enabled iff the Adaptive Scaling scenario is
selected), the two processes created — `legitimate_user` first — with
their start events pending.  No validation of any kind is performed. -/
def initSim (sc : Scenario) (uR aR : ℚ) (st : ℕ → ℚ) : Sim :=
  { scenario := sc
    userRate := uR
    attackRate := aR
    scaling := decide (sc = .adaptiveScaling)
    stream := st
    idx := 0
    now := 0
    legit := .start
    attacker := .start
    users := 0
    queue := []
    capacity := SERVER_INITIAL_CAPACITY
    baseCapacity := SERVER_INITIAL_CAPACITY
    processed := 0
    dropped := 0
    respTimes := []
    scaleTimers := []
    log := []
    finished := false
    errored := false }

/-- The event loop, iterated `n` times (fuel abstraction of
`env.run(until=SIM_TIME)`; `step` is the identity once the run has
finished). -/
def runFor (sc : Scenario) (uR aR : ℚ) (st : ℕ → ℚ) : ℕ → Sim
  | 0 => initSim sc uR aR st
  | n + 1 => step (runFor sc uR aR st n)

/-- `sum(response_times)/len(response_times) if response_times else 0`. -/
def avgOf (s : Sim) : ℚ :=
  if s.respTimes.isEmpty then 0 else s.respTimes.sum / s.respTimes.length

/-- `run_simulation(scenario, user_rate, attack_rate)`: run the event
loop and report `(avg_response_time, processed, dropped)`; an uncaught
exception propagates to the caller instead. -/
def run_simulation (sc : Scenario) (uR aR : ℚ) (st : ℕ → ℚ) (fuel : ℕ) :
    Except String (ℚ × ℕ × ℕ) :=
  let s := runFor sc uR aR st fuel
  if s.errored then .error "simulation runtime error" else .ok (avgOf s, s.processed, s.dropped)

/-! ### Observables of a run -/

/-- Number of Legitimate arrivals emitted (printed) so far. -/
def legitArrivalCount (l : List Entry) : ℕ :=
  l.countP (fun e => match e with | .arrival .legit _ => true | _ => false)

/-- Arrival instants of one traffic class, in order. -/
def arrivalTimes (w : Who) (l : List Entry) : List ℚ :=
  l.filterMap (fun e => match e with
    | .arrival w2 t => if w2 = w then some t else none
    | _ => none)

/-- Number of scale-up events so far. -/
def scaleUpCount (l : List Entry) : ℕ :=
  l.countP (fun e => match e with | .scaleUp _ => true | _ => false)

/-- Number of admissions (`Resource.users` appends) so far. -/
def grantCount (l : List Entry) : ℕ :=
  l.countP (fun e => match e with | .granted _ _ => true | _ => false)

/-- Number of scale checks recorded at instant `t`. -/
def scaleChecksAt (t : ℚ) (l : List Entry) : ℕ :=
  l.countP (fun e => match e with | .scaleCheck t2 _ => t2 = t | _ => false)

/-- Whether a `granted` entry at instant `t` for client `w` exists. -/
def grantedAt (w : Who) (t : ℚ) (l : List Entry) : Bool :=
  l.any (fun e => e = .granted w t)

/-- 1 when the client currently holds a server slot. -/
def bcS : CState → ℕ
  | .inService _ _ => 1
  | _ => 0

/-- 1 when the client currently waits in the server queue. -/
def bcQ : CState → ℕ
  | .queued _ => 1
  | _ => 0

/-- 1 when the client has an emitted request still being handled
(waiting in the queue or in service). -/
def bcP : CState → ℕ
  | .queued _ => 1
  | .inService _ _ => 1
  | _ => 0

/-- Count of one client in the wait queue. -/
def countWho (w : Who) (l : List Who) : ℕ :=
  l.countP (fun x => x = w)

/-- Projection of a run result: `some` triple when the run returned
normally, `none` when it raised. -/
def resultTriple : Except String (ℚ × ℕ × ℕ) → Option (ℚ × ℕ × ℕ)
  | .ok v => some v
  | .error _ => none

/-- Whether the run raised an exception instead of returning. -/
def raisedError : Except String (ℚ × ℕ × ℕ) → Bool
  | .ok _ => false
  | .error _ => true

/-- Number of Legitimate requests that have been emitted but whose
handling (admission plus service, or the drop decision) has not yet
completed: 1 while the legitimate client waits in the queue or holds a
slot, 0 otherwise. -/
def pendingLegit (s : Sim) : ℕ := bcP s.legit

/-! ### Concrete random streams used in the counterexamples and
witnesses below.  A stream value is the entropy `-log(1-u)` of one
uniform draw; all chosen streams keep every event of the induced run at
a distinct instant (except the two process-start events at time 0,
which SimPy also runs legitimate-first), so the fixed tie-break of
`better` agrees with SimPy's schedule order on these runs. -/

/-- First legitimate gap 1, first attacker gap 10000 (attacker out of
horizon), every service duration 100 (service overruns the horizon). -/
def streamA : ℕ → ℚ := fun n => if n = 0 then 1 else if n = 1 then 10000 else 100

/-- Constant entropy 2: with `user_rate = 1` every legitimate gap and
every service duration is exactly 2. -/
def streamB : ℕ → ℚ := fun _ => 2

/-- Constant entropy 100: both first arrivals fall beyond the horizon. -/
def streamC : ℕ → ℚ := fun _ => 100

/-- Constant entropy 1. -/
def streamD : ℕ → ℚ := fun _ => 1

/-- Demo state: the server is busy (one request in service). -/
def sDemoBusy : Sim := { initSim .rateLimiting 1 1 streamD with users := 1 }

/-- Demo state: fresh Rate-Limiting simulation, server idle. -/
def sDemoFree : Sim := initSim .rateLimiting 1 1 streamD

/-- Demo state: the legitimate client is in service (arrived at 1,
service finishes at 3). -/
def sDemoServing : Sim := { initSim .rateLimiting 1 1 streamD with legit := .inService 3 1, users := 1 }

/-- Demo state: Adaptive Scaling with a wait queue at the threshold. -/
def sDemoScale : Sim :=
  { initSim .adaptiveScaling 1 1 streamD with queue := [.legit, .attacker, .legit] }

/-- Demo state: Adaptive Scaling, the legitimate client in service
(arrived at 1, service finishes at 3), empty wait queue. -/
def sDemoAdServe : Sim :=
  { initSim .adaptiveScaling 1 1 streamD with legit := .inService 3 1, users := 1 }

/-- Demo state: both pending arrivals fall beyond the horizon. -/
def sDemoHorizon : Sim :=
  { initSim .rateLimiting 1 1 streamC with legit := .gap 100, attacker := .gap 200 }

/-! ### Small projection lemmas -/

attribute [local semireducible] Rat.add Rat.sub Rat.mul Rat.inv Rat.ofScientific

@[simp] lemma getC_setC_same (s : Sim) (w : Who) (c : CState) :
    getC (setC s w c) w = c := by cases w <;> rfl

lemma getC_setC_other (s : Sim) {w w2 : Who} (h : w2 ≠ w) (c : CState) :
    getC (setC s w c) w2 = getC s w2 := by
  cases w <;> cases w2 <;> simp_all [setC, getC]

@[simp] lemma setC_users (s : Sim) (w : Who) (c : CState) :
    (setC s w c).users = s.users := by cases w <;> rfl

@[simp] lemma setC_queue (s : Sim) (w : Who) (c : CState) :
    (setC s w c).queue = s.queue := by cases w <;> rfl

@[simp] lemma setC_capacity (s : Sim) (w : Who) (c : CState) :
    (setC s w c).capacity = s.capacity := by cases w <;> rfl

@[simp] lemma setC_baseCapacity (s : Sim) (w : Who) (c : CState) :
    (setC s w c).baseCapacity = s.baseCapacity := by cases w <;> rfl

@[simp] lemma setC_processed (s : Sim) (w : Who) (c : CState) :
    (setC s w c).processed = s.processed := by cases w <;> rfl

@[simp] lemma setC_dropped (s : Sim) (w : Who) (c : CState) :
    (setC s w c).dropped = s.dropped := by cases w <;> rfl

@[simp] lemma setC_respTimes (s : Sim) (w : Who) (c : CState) :
    (setC s w c).respTimes = s.respTimes := by cases w <;> rfl

@[simp] lemma setC_scaleTimers (s : Sim) (w : Who) (c : CState) :
    (setC s w c).scaleTimers = s.scaleTimers := by cases w <;> rfl

@[simp] lemma setC_log (s : Sim) (w : Who) (c : CState) :
    (setC s w c).log = s.log := by cases w <;> rfl

@[simp] lemma setC_now (s : Sim) (w : Who) (c : CState) :
    (setC s w c).now = s.now := by cases w <;> rfl

@[simp] lemma setC_idx (s : Sim) (w : Who) (c : CState) :
    (setC s w c).idx = s.idx := by cases w <;> rfl

@[simp] lemma setC_stream (s : Sim) (w : Who) (c : CState) :
    (setC s w c).stream = s.stream := by cases w <;> rfl

@[simp] lemma setC_scenario (s : Sim) (w : Who) (c : CState) :
    (setC s w c).scenario = s.scenario := by cases w <;> rfl

@[simp] lemma setC_scaling (s : Sim) (w : Who) (c : CState) :
    (setC s w c).scaling = s.scaling := by cases w <;> rfl

@[simp] lemma setC_errored (s : Sim) (w : Who) (c : CState) :
    (setC s w c).errored = s.errored := by cases w <;> rfl

@[simp] lemma setC_finished (s : Sim) (w : Who) (c : CState) :
    (setC s w c).finished = s.finished := by cases w <;> rfl

@[simp] lemma setC_userRate (s : Sim) (w : Who) (c : CState) :
    (setC s w c).userRate = s.userRate := by cases w <;> rfl

@[simp] lemma setC_attackRate (s : Sim) (w : Who) (c : CState) :
    (setC s w c).attackRate = s.attackRate := by cases w <;> rfl

lemma rateOf_congr {s s2 : Sim} (hu : s2.userRate = s.userRate)
    (ha : s2.attackRate = s.attackRate) (w : Who) : rateOf s2 w = rateOf s w := by
  cases w <;> simp [rateOf, hu, ha]

/-! ### Branch characterization lemmas for the engine helpers -/

lemma sampleGap_spec (w : Who) (s : Sim) (h : s.errored = false) :
    (sampleGap w s = fail { s with idx := s.idx + 1 } ∧
      ¬ (rateOf s w ≠ 0 ∧ 0 ≤ s.stream s.idx / rateOf s w)) ∨
    (sampleGap w s = setC { s with idx := s.idx + 1 } w
        (.gap (s.now + s.stream s.idx / rateOf s w)) ∧
      rateOf s w ≠ 0 ∧ 0 ≤ s.stream s.idx / rateOf s w) := by
  cases w
  all_goals
    simp only [rateOf]
  · by_cases h0 : s.userRate = 0
    · left
      exact ⟨by simp [sampleGap, draw, expovariate, rateOf, h, h0], by simp [h0]⟩
    · by_cases hneg : s.stream s.idx / s.userRate < 0
      · left
        refine ⟨by simp [sampleGap, draw, expovariate, rateOf, h, h0, hneg], ?_⟩
        simp [h0]
        exact hneg
      · right
        exact ⟨by simp [sampleGap, draw, expovariate, rateOf, h, h0, hneg],
          h0, le_of_not_lt hneg⟩
  · by_cases h0 : s.attackRate = 0
    · left
      exact ⟨by simp [sampleGap, draw, expovariate, rateOf, h, h0], by simp [h0]⟩
    · by_cases hneg : s.stream s.idx / s.attackRate < 0
      · left
        refine ⟨by simp [sampleGap, draw, expovariate, rateOf, h, h0, hneg], ?_⟩
        simp [h0]
        exact hneg
      · right
        exact ⟨by simp [sampleGap, draw, expovariate, rateOf, h, h0, hneg],
          h0, le_of_not_lt hneg⟩

lemma sampleService_spec (w : Who) (arr : ℚ) (s : Sim) (h : s.errored = false) :
    (sampleService w arr s = fail { s with idx := s.idx + 1 } ∧ s.stream s.idx < 0) ∨
    (sampleService w arr s = setC { s with idx := s.idx + 1 } w
        (.inService (s.now + s.stream s.idx) arr) ∧ 0 ≤ s.stream s.idx) := by
  by_cases hneg : s.stream s.idx < 0
  · left
    exact ⟨by simp [sampleService, draw, expovariate, h, hneg], hneg⟩
  · right
    exact ⟨by simp [sampleService, draw, expovariate, h, hneg], le_of_not_lt hneg⟩

lemma requestSlot_grant (w : Who) (arr : ℚ) (s : Sim) (h : s.errored = false)
    (hlt : s.users < s.capacity) :
    requestSlot w arr s = sampleService w arr
      { s with users := s.users + 1, log := s.log ++ [.granted w s.now] } := by
  simp [requestSlot, h, hlt]

lemma requestSlot_enqueue (w : Who) (arr : ℚ) (s : Sim) (h : s.errored = false)
    (hge : ¬ s.users < s.capacity) :
    requestSlot w arr s = setC { s with queue := s.queue ++ [w] } w (.queued arr) := by
  simp [requestSlot, h, hge]

lemma scale_resources_no (s : Sim) (h : s.errored = false)
    (hq : ¬ (s.scaling = true ∧ QUEUE_THRESHOLD ≤ s.queue.length)) :
    scale_resources s = { s with log := s.log ++ [.scaleCheck s.now s.queue.length] } := by
  simp only [scale_resources, h, Bool.false_eq_true, if_false]
  split
  · next hcond =>
    exact absurd (by simpa using hcond) hq
  · rfl

lemma scale_resources_yes (s : Sim) (h : s.errored = false)
    (hq : s.scaling = true ∧ QUEUE_THRESHOLD ≤ s.queue.length) :
    scale_resources s =
      fail { s with log := s.log ++ [.scaleCheck s.now s.queue.length, .scaleUp s.now] } := by
  simp only [scale_resources, h, Bool.false_eq_true, if_false]
  split
  · simp [fail]
  · next hcond =>
    exact absurd (by simpa using hq) hcond

@[simp] lemma grantLoop_nil (s : Sim) : grantLoop [] s = ({ s with queue := [] }, []) := rfl

lemma grantLoop_one_grant (w : Who) (s : Sim) (hlt : s.users < s.capacity) :
    grantLoop [w] s =
      ({ s with users := s.users + 1, log := s.log ++ [.granted w s.now], queue := [] }, [w]) := by
  simp [grantLoop, hlt]

lemma grantLoop_one_stay (w : Who) (s : Sim) (hge : ¬ s.users < s.capacity) :
    grantLoop [w] s = ({ s with queue := [w] }, []) := by
  simp [grantLoop, hge]

@[simp] lemma startAll_nil (s : Sim) : startAll [] s = s := rfl

lemma startAll_one_queued (w : Who) (arr : ℚ) (s : Sim) (h : getC s w = .queued arr) :
    startAll [w] s = sampleService w arr s := by
  simp [startAll, h]

/-! ### Counting lemmas for the observables -/

@[simp] lemma legitArrivalCount_nil : legitArrivalCount [] = 0 := rfl

@[simp] lemma legitArrivalCount_append (l l2 : List Entry) :
    legitArrivalCount (l ++ l2) = legitArrivalCount l + legitArrivalCount l2 := by
  simp [legitArrivalCount]

@[simp] lemma scaleUpCount_nil : scaleUpCount [] = 0 := rfl

@[simp] lemma scaleUpCount_append (l l2 : List Entry) :
    scaleUpCount (l ++ l2) = scaleUpCount l + scaleUpCount l2 := by
  simp [scaleUpCount]

@[simp] lemma grantCount_nil : grantCount [] = 0 := rfl

@[simp] lemma grantCount_append (l l2 : List Entry) :
    grantCount (l ++ l2) = grantCount l + grantCount l2 := by
  simp [grantCount]

@[simp] lemma legitArrivalCount_arrival_legit (t : ℚ) :
    legitArrivalCount [.arrival .legit t] = 1 := rfl

@[simp] lemma legitArrivalCount_arrival_attacker (t : ℚ) :
    legitArrivalCount [.arrival .attacker t] = 0 := rfl

@[simp] lemma legitArrivalCount_droppedReq (t : ℚ) :
    legitArrivalCount [.droppedReq t] = 0 := rfl

@[simp] lemma legitArrivalCount_granted (w : Who) (t : ℚ) :
    legitArrivalCount [.granted w t] = 0 := rfl

@[simp] lemma legitArrivalCount_processedReq (w : Who) (t : ℚ) :
    legitArrivalCount [.processedReq w t] = 0 := rfl

@[simp] lemma legitArrivalCount_scaleCheck (t : ℚ) (q : ℕ) :
    legitArrivalCount [.scaleCheck t q] = 0 := rfl

@[simp] lemma legitArrivalCount_scaleUp (t : ℚ) :
    legitArrivalCount [.scaleUp t] = 0 := rfl

@[simp] lemma legitArrivalCount_scaleDown (t : ℚ) :
    legitArrivalCount [.scaleDown t] = 0 := rfl

@[simp] lemma scaleUpCount_arrival (w : Who) (t : ℚ) :
    scaleUpCount [.arrival w t] = 0 := rfl

@[simp] lemma scaleUpCount_droppedReq (t : ℚ) :
    scaleUpCount [.droppedReq t] = 0 := rfl

@[simp] lemma scaleUpCount_granted (w : Who) (t : ℚ) :
    scaleUpCount [.granted w t] = 0 := rfl

@[simp] lemma scaleUpCount_processedReq (w : Who) (t : ℚ) :
    scaleUpCount [.processedReq w t] = 0 := rfl

@[simp] lemma scaleUpCount_scaleCheck (t : ℚ) (q : ℕ) :
    scaleUpCount [.scaleCheck t q] = 0 := rfl

@[simp] lemma scaleUpCount_scaleUp (t : ℚ) :
    scaleUpCount [.scaleUp t] = 1 := rfl

@[simp] lemma scaleUpCount_scaleDown (t : ℚ) :
    scaleUpCount [.scaleDown t] = 0 := rfl

@[simp] lemma grantCount_arrival (w : Who) (t : ℚ) :
    grantCount [.arrival w t] = 0 := rfl

@[simp] lemma grantCount_droppedReq (t : ℚ) :
    grantCount [.droppedReq t] = 0 := rfl

@[simp] lemma grantCount_granted (w : Who) (t : ℚ) :
    grantCount [.granted w t] = 1 := rfl

@[simp] lemma grantCount_processedReq (w : Who) (t : ℚ) :
    grantCount [.processedReq w t] = 0 := rfl

@[simp] lemma grantCount_scaleCheck (t : ℚ) (q : ℕ) :
    grantCount [.scaleCheck t q] = 0 := rfl

@[simp] lemma grantCount_scaleUp (t : ℚ) :
    grantCount [.scaleUp t] = 0 := rfl

@[simp] lemma grantCount_scaleDown (t : ℚ) :
    grantCount [.scaleDown t] = 0 := rfl

@[simp] lemma legitArrivalCount_pair (a b : Entry) :
    legitArrivalCount [a, b] = legitArrivalCount [a] + legitArrivalCount [b] := by
  simp [legitArrivalCount, List.countP_cons]
  omega

@[simp] lemma scaleUpCount_pair (a b : Entry) :
    scaleUpCount [a, b] = scaleUpCount [a] + scaleUpCount [b] := by
  simp [scaleUpCount, List.countP_cons]
  omega

@[simp] lemma grantCount_pair (a b : Entry) :
    grantCount [a, b] = grantCount [a] + grantCount [b] := by
  simp [grantCount, List.countP_cons]
  omega

@[simp] lemma legitArrivalCount_triple (a b c : Entry) :
    legitArrivalCount [a, b, c] = legitArrivalCount [a] + legitArrivalCount [b] + legitArrivalCount [c] := by
  simp [legitArrivalCount, List.countP_cons]
  omega

@[simp] lemma scaleUpCount_triple (a b c : Entry) :
    scaleUpCount [a, b, c] = scaleUpCount [a] + scaleUpCount [b] + scaleUpCount [c] := by
  simp [scaleUpCount, List.countP_cons]
  omega

@[simp] lemma grantCount_triple (a b c : Entry) :
    grantCount [a, b, c] = grantCount [a] + grantCount [b] + grantCount [c] := by
  simp [grantCount, List.countP_cons]
  omega

@[simp] lemma countWho_nil (w : Who) : countWho w [] = 0 := rfl

@[simp] lemma countWho_append (w : Who) (l l2 : List Who) :
    countWho w (l ++ l2) = countWho w l + countWho w l2 := by
  simp [countWho]

@[simp] lemma countWho_singleton (w x : Who) :
    countWho w [x] = if x = w then 1 else 0 := by
  simp [countWho, List.countP_cons]

lemma countWho_add_length (l : List Who) :
    countWho .legit l + countWho .attacker l = l.length := by
  induction l with
  | nil => rfl
  | cons x xs ih =>
    cases x <;> simp [countWho, List.countP_cons] at ih ⊢ <;> omega

lemma list_len_le_one (l : List Who) (h : l.length ≤ 1) :
    l = [] ∨ ∃ w, l = [w] := by
  cases l with
  | nil => exact Or.inl rfl
  | cons x xs =>
    cases xs with
    | nil => exact Or.inr ⟨x, rfl⟩
    | cons y ys => simp at h

/-! ### The run invariant -/

/-- Synchronization between the resource bookkeeping, the client
control states and the metric counters; meaningful only while no
exception has been raised. -/
def SSync (s : Sim) : Prop :=
  s.users = bcS s.legit + bcS s.attacker ∧
  countWho .legit s.queue = bcQ s.legit ∧
  countWho .attacker s.queue = bcQ s.attacker ∧
  legitArrivalCount s.log = s.processed + s.dropped + bcP s.legit ∧
  s.respTimes.length + bcS s.legit + bcS s.attacker ≤ grantCount s.log

/-- Invariant of every reachable state: the capacity never moves off
the initial capacity 1, no scale-up ever fires, no scale timer is ever
pending, the in-service count respects the capacity, at most two
requests (one per client process) ever contend for the server, and the
Adaptive Scaling policy never drops. -/
def Inv (s : Sim) : Prop :=
  s.capacity = 1 ∧
  s.baseCapacity = 1 ∧
  s.scaleTimers = [] ∧
  s.users ≤ s.capacity ∧
  s.users + s.queue.length ≤ 2 ∧
  scaleUpCount s.log = 0 ∧
  (s.scenario = .adaptiveScaling → s.dropped = 0) ∧
  (s.errored = true → s.finished = true) ∧
  (s.errored = false → SSync s)

lemma inv_initSim (sc : Scenario) (uR aR : ℚ) (st : ℕ → ℚ) :
    Inv (initSim sc uR aR st) := by
  refine ⟨rfl, rfl, rfl, by simp [initSim, SERVER_INITIAL_CAPACITY], by simp [initSim], rfl,
    fun _ => rfl, by simp [initSim], fun _ => ⟨rfl, rfl, rfl, rfl, by simp [initSim, bcS]⟩⟩

/-! ### Inversion of the event selection -/

lemma better_cases (a b : Option (ℚ × Ev)) : better a b = a ∨ better a b = b := by
  cases a with
  | none => exact Or.inr rfl
  | some x =>
    cases b with
    | none => exact Or.inl rfl
    | some y =>
      simp only [better]
      split_ifs <;> simp

lemma nextEvent_mem {s : Sim} {x : ℚ × Ev} (h : nextEvent s = some x) :
    evOf .legit s.legit = some x ∨ evOf .attacker s.attacker = some x ∨
      timerEv s.scaleTimers = some x := by
  unfold nextEvent at h
  rcases better_cases (better (evOf .legit s.legit) (evOf .attacker s.attacker))
      (timerEv s.scaleTimers) with h1 | h1
  · rw [h1] at h
    rcases better_cases (evOf .legit s.legit) (evOf .attacker s.attacker) with h2 | h2
    · rw [h2] at h
      exact Or.inl h
    · rw [h2] at h
      exact Or.inr (Or.inl h)
  · rw [h1] at h
    exact Or.inr (Or.inr h)

lemma evOf_inv_start {w w2 : Who} {c : CState} {t : ℚ}
    (h : evOf w c = some (t, .startProc w2)) : w2 = w ∧ c = .start ∧ t = 0 := by
  cases c <;> simp_all [evOf]

lemma evOf_inv_arrival {w w2 : Who} {c : CState} {t : ℚ}
    (h : evOf w c = some (t, .arrival w2)) : w2 = w ∧ c = .gap t := by
  cases c <;> simp_all [evOf]

lemma evOf_inv_completion {w w2 : Who} {c : CState} {t : ℚ}
    (h : evOf w c = some (t, .completion w2)) : w2 = w ∧ ∃ arr, c = .inService t arr := by
  cases c <;> simp_all [evOf]

lemma evOf_not_scaleReset {w : Who} {c : CState} {t : ℚ} :
    evOf w c ≠ some (t, .scaleReset) := by
  cases c <;> simp [evOf]

@[simp] lemma timerEv_nil : timerEv [] = none := rfl

lemma timerEv_reset {ts : List ℚ} {t : ℚ} {ev : Ev} (h : timerEv ts = some (t, ev)) :
    ev = .scaleReset := by
  unfold timerEv at h
  rcases hm : listMin ts with _ | a
  · rw [hm] at h
    simp at h
  · rw [hm] at h
    simp at h
    exact h.2.symm

/-! ### Preservation of the invariant -/

@[simp] lemma bcS_start : bcS .start = 0 := rfl

@[simp] lemma bcS_gap (t : ℚ) : bcS (.gap t) = 0 := rfl

@[simp] lemma bcS_queued (t : ℚ) : bcS (.queued t) = 0 := rfl

@[simp] lemma bcS_inService (f a : ℚ) : bcS (.inService f a) = 1 := rfl

@[simp] lemma bcQ_start : bcQ .start = 0 := rfl

@[simp] lemma bcQ_gap (t : ℚ) : bcQ (.gap t) = 0 := rfl

@[simp] lemma bcQ_queued (t : ℚ) : bcQ (.queued t) = 1 := rfl

@[simp] lemma bcQ_inService (f a : ℚ) : bcQ (.inService f a) = 0 := rfl

lemma bcS_add_bcQ_le_one (c : CState) : bcS c + bcQ c ≤ 1 := by
  cases c <;> simp [bcS, bcQ]

@[simp] lemma bcP_eq (c : CState) : bcP c = bcQ c + bcS c := by
  cases c <;> rfl

lemma inv_requestSlot_post {s1 : Sim} {w : Who} (t0 : ℚ)
    (herr : s1.errored = false)
    (hcap : s1.capacity = 1) (hbase : s1.baseCapacity = 1) (htmr : s1.scaleTimers = [])
    (hup : scaleUpCount s1.log = 0)
    (hdrop : s1.scenario = .adaptiveScaling → s1.dropped = 0)
    (hw : getC s1 w = .gap t0)
    (husers : s1.users = bcS s1.legit + bcS s1.attacker)
    (hql : countWho .legit s1.queue = bcQ s1.legit)
    (hqa : countWho .attacker s1.queue = bcQ s1.attacker)
    (hacct : legitArrivalCount s1.log =
      s1.processed + s1.dropped + bcP s1.legit + (if w = .legit then 1 else 0))
    (hresp : s1.respTimes.length + bcS s1.legit + bcS s1.attacker ≤ grantCount s1.log) :
    Inv (requestSlot w s1.now s1) := by
  have hLe := bcS_add_bcQ_le_one s1.legit
  have hAe := bcS_add_bcQ_le_one s1.attacker
  have hqlen : s1.queue.length = bcQ s1.legit + bcQ s1.attacker := by
    rw [← countWho_add_length, hql, hqa]
  cases w <;> simp only [getC] at hw
  · -- Legitimate request
    have hbS : bcS s1.legit = 0 := by rw [hw]; rfl
    have hbQ : bcQ s1.legit = 0 := by rw [hw]; rfl
    simp at hacct
    by_cases hlt : s1.users < s1.capacity
    · rw [requestSlot_grant _ _ _ herr hlt]
      rcases sampleService_spec .legit s1.now
          { s1 with users := s1.users + 1, log := s1.log ++ [.granted .legit s1.now] }
          herr with ⟨heq, -⟩ | ⟨heq, -⟩ <;> rw [heq]
      · refine ⟨hcap, hbase, htmr, ?_, ?_, ?_, hdrop, fun _ => rfl,
          fun hc => absurd hc (by simp [fail])⟩
        · show s1.users + 1 ≤ s1.capacity
          omega
        · show s1.users + 1 + s1.queue.length ≤ 2
          omega
        · show scaleUpCount (s1.log ++ [.granted .legit s1.now]) = 0
          simp [hup]
      · refine ⟨hcap, hbase, htmr, ?_, ?_, ?_, hdrop,
          fun hc => absurd hc (by simp [setC, herr]), fun _ => ?_⟩
        · show s1.users + 1 ≤ s1.capacity
          omega
        · show s1.users + 1 + s1.queue.length ≤ 2
          omega
        · show scaleUpCount (s1.log ++ [.granted .legit s1.now]) = 0
          simp [hup]
        · refine ⟨?_, ?_, ?_, ?_, ?_⟩ <;>
            simp [setC, hql, hqa, hbQ, hbS] <;>
            omega
    · rw [requestSlot_enqueue _ _ _ herr hlt]
      have husers1 : s1.users = 1 := by omega
      have hbSA : bcS s1.attacker = 1 := by omega
      have hbQA : bcQ s1.attacker = 0 := by omega
      refine ⟨hcap, hbase, htmr, ?_, ?_, ?_, hdrop,
        fun hc => absurd hc (by simp [setC, herr]), fun _ => ?_⟩
      · show s1.users ≤ s1.capacity
        omega
      · show s1.users + (s1.queue ++ [Who.legit]).length ≤ 2
        simp
        omega
      · show scaleUpCount s1.log = 0
        exact hup
      · refine ⟨?_, ?_, ?_, ?_, ?_⟩ <;>
          simp [setC, hql, hqa, hbQ, hbS, hbQA, hbSA] <;>
          omega
  · -- Attack request
    have hbS : bcS s1.attacker = 0 := by rw [hw]; rfl
    have hbQ : bcQ s1.attacker = 0 := by rw [hw]; rfl
    simp at hacct
    by_cases hlt : s1.users < s1.capacity
    · rw [requestSlot_grant _ _ _ herr hlt]
      rcases sampleService_spec .attacker s1.now
          { s1 with users := s1.users + 1, log := s1.log ++ [.granted .attacker s1.now] }
          herr with ⟨heq, -⟩ | ⟨heq, -⟩ <;> rw [heq]
      · refine ⟨hcap, hbase, htmr, ?_, ?_, ?_, hdrop, fun _ => rfl,
          fun hc => absurd hc (by simp [fail])⟩
        · show s1.users + 1 ≤ s1.capacity
          omega
        · show s1.users + 1 + s1.queue.length ≤ 2
          omega
        · show scaleUpCount (s1.log ++ [.granted .attacker s1.now]) = 0
          simp [hup]
      · refine ⟨hcap, hbase, htmr, ?_, ?_, ?_, hdrop,
          fun hc => absurd hc (by simp [setC, herr]), fun _ => ?_⟩
        · show s1.users + 1 ≤ s1.capacity
          omega
        · show s1.users + 1 + s1.queue.length ≤ 2
          omega
        · show scaleUpCount (s1.log ++ [.granted .attacker s1.now]) = 0
          simp [hup]
        · refine ⟨?_, ?_, ?_, ?_, ?_⟩ <;>
            simp [setC, hql, hqa, hbQ, hbS] <;>
            omega
    · rw [requestSlot_enqueue _ _ _ herr hlt]
      have husers1 : s1.users = 1 := by omega
      have hbSL : bcS s1.legit = 1 := by omega
      have hbQL : bcQ s1.legit = 0 := by omega
      refine ⟨hcap, hbase, htmr, ?_, ?_, ?_, hdrop,
        fun hc => absurd hc (by simp [setC, herr]), fun _ => ?_⟩
      · show s1.users ≤ s1.capacity
        omega
      · show s1.users + (s1.queue ++ [Who.attacker]).length ≤ 2
        simp
        omega
      · show scaleUpCount s1.log = 0
        exact hup
      · refine ⟨?_, ?_, ?_, ?_, ?_⟩ <;>
          simp [setC, hql, hqa, hbQ, hbS, hbQL, hbSL] <;>
          omega

lemma getC_congr {s1 s : Sim} (hl : s1.legit = s.legit) (ha : s1.attacker = s.attacker)
    (w : Who) : getC s1 w = getC s w := by
  cases w <;> simp [getC, hl, ha]

@[simp] lemma legitArrivalCount_arrival (w : Who) (t : ℚ) :
    legitArrivalCount [.arrival w t] = if w = .legit then 1 else 0 := by
  cases w <;> simp

lemma handleArrival_drop (w : Who) (s : Sim) (hsc : s.scenario = .rateLimiting)
    (hwl : w = .legit) (hlim : RATE_LIMIT ≤ s.users) :
    handleArrival w s = sampleGap w
      { s with dropped := s.dropped + 1,
               log := s.log ++ [.arrival w s.now, .droppedReq s.now] } := by
  subst hwl
  simp [handleArrival, rate_limited_request, hsc, hlim]

lemma handleArrival_rl_request (w : Who) (s : Sim) (hsc : s.scenario = .rateLimiting)
    (hdc : ¬ (w = .legit ∧ RATE_LIMIT ≤ s.users)) :
    handleArrival w s = requestSlot w s.now { s with log := s.log ++ [.arrival w s.now] } := by
  simp [handleArrival, rate_limited_request, hsc, hdc]

lemma handleArrival_ad_request (w : Who) (s : Sim) (hsc : s.scenario = .adaptiveScaling) :
    handleArrival w s = requestSlot w s.now { s with log := s.log ++ [.arrival w s.now] } := by
  simp [handleArrival, hsc]

lemma inv_exec_arrival {s : Sim} {w : Who} {t t0 : ℚ} (h : Inv s) (herr : s.errored = false)
    (hw : getC s w = .gap t0) : Inv (execEvent t (.arrival w) s) := by
  obtain ⟨hcap, hbase, htmr, hule, hsum, hup, hdrop, heft, hsync⟩ := h
  obtain ⟨husers, hql, hqa, hacct, hresp⟩ := hsync herr
  show Inv (handleArrival w { s with now := t })
  have hscRL : s.scenario = .rateLimiting ∨ s.scenario = .adaptiveScaling := by
    cases s.scenario
    · exact Or.inl rfl
    · exact Or.inr rfl
  -- the requestSlot path, shared by the two scenarios
  have hreq : Inv (requestSlot w t { s with now := t, log := s.log ++ [Entry.arrival w t] }) := by
    refine inv_requestSlot_post t0 herr hcap hbase htmr (by simp [hup])
      (fun had => hdrop had) (by rw [getC_congr rfl rfl w]; exact hw)
      husers hql hqa ?_ (by simp; omega)
    show legitArrivalCount (s.log ++ [Entry.arrival w t]) =
      s.processed + s.dropped + bcP s.legit + (if w = .legit then 1 else 0)
    simp [hacct]
  rcases hscRL with hsc | hsc
  · -- Rate-Limiting scenario
    by_cases hdc : w = .legit ∧ RATE_LIMIT ≤ s.users
    · -- drop branch
      rw [handleArrival_drop w { s with now := t } hsc hdc.1 hdc.2]
      obtain ⟨hwl, hlim⟩ := hdc
      subst hwl
      rcases sampleGap_spec .legit { s with now := t, dropped := s.dropped + 1, log := s.log ++ [Entry.arrival .legit t, Entry.droppedReq t] } herr with ⟨heq, -⟩ | ⟨heq, -⟩ <;> rw [heq]
      · refine ⟨hcap, hbase, htmr, hule, hsum, by simp [fail, hup], ?_, fun _ => rfl,
          fun hc => absurd hc (by simp [fail])⟩
        intro had
        rw [hsc] at had
        cases had
      · have hbS : bcS s.legit = 0 := by simp only [getC] at hw; rw [hw]; rfl
        have hbQ : bcQ s.legit = 0 := by simp only [getC] at hw; rw [hw]; rfl
        refine ⟨hcap, hbase, htmr, hule, hsum, by simp [setC, hup], ?_,
          fun hc => absurd hc (by simp [setC, herr]), fun _ => ?_⟩
        · intro had
          rw [hsc] at had
          cases had
        · have hacct2 : legitArrivalCount s.log = s.processed + s.dropped := by
            rw [hacct]
            simp [hbS, hbQ]
          refine ⟨?_, ?_, ?_, ?_, ?_⟩ <;>
            simp [setC, hql, hqa, hbS, hbQ, hacct2] <;>
            omega
    · -- no drop: the request enters the resource
      rw [handleArrival_rl_request w { s with now := t } hsc hdc]
      exact hreq
  · -- Adaptive Scaling scenario
    rw [handleArrival_ad_request w { s with now := t } hsc]
    exact hreq

lemma sampleGap_errored {w : Who} {s : Sim} (h : s.errored = true) : sampleGap w s = s := by
  simp [sampleGap, h]

lemma sampleService_errored {w : Who} {arr : ℚ} {s : Sim} (h : s.errored = true) :
    sampleService w arr s = s := by
  simp [sampleService, h]

lemma scale_resources_errored {s : Sim} (h : s.errored = true) : scale_resources s = s := by
  simp [scale_resources, h]

@[simp] lemma fail_errored (s : Sim) : (fail s).errored = true := rfl

lemma who_cases (x : Who) : x = .legit ∨ x = .attacker := by
  cases x
  · exact Or.inl rfl
  · exact Or.inr rfl

lemma bcQ_eq_one {c : CState} (h : bcQ c = 1) : ∃ a, c = .queued a := by
  cases c <;> simp_all

lemma sampleGap_cases (w : Who) (s1 : Sim) (P : Sim → Prop) (herr : s1.errored = false)
    (hfail : P (fail { s1 with idx := s1.idx + 1 }))
    (hok : ∀ g : ℚ, 0 ≤ g → P (setC { s1 with idx := s1.idx + 1 } w (.gap (s1.now + g)))) :
    P (sampleGap w s1) := by
  rcases sampleGap_spec w s1 herr with ⟨heq, -⟩ | ⟨heq, -, hpos⟩ <;> rw [heq]
  · exact hfail
  · exact hok _ hpos

lemma sampleService_cases (w : Who) (arr : ℚ) (s1 : Sim) (P : Sim → Prop)
    (herr : s1.errored = false)
    (hfail : P (fail { s1 with idx := s1.idx + 1 }))
    (hok : ∀ d : ℚ, 0 ≤ d →
      P (setC { s1 with idx := s1.idx + 1 } w (.inService (s1.now + d) arr))) :
    P (sampleService w arr s1) := by
  rcases sampleService_spec w arr s1 herr with ⟨heq, -⟩ | ⟨heq, hpos⟩ <;> rw [heq]
  · exact hfail
  · exact hok _ hpos

lemma scale_resources_fail (s : Sim) : scale_resources (fail s) = fail s := by
  simp [scale_resources, fail]

lemma sampleGap_fail (w : Who) (s : Sim) : sampleGap w (fail s) = fail s := by
  simp [sampleGap, fail]

lemma sampleService_fail (w : Who) (arr : ℚ) (s : Sim) :
    sampleService w arr (fail s) = fail s := by
  simp [sampleService, fail]

lemma startAll_errored {ws : List Who} {s : Sim} (h : s.errored = true) : startAll ws s = s := by
  induction ws with
  | nil => rfl
  | cons x xs ih =>
    have hstep : startAll (x :: xs) s = startAll xs s := by
      cases hg : getC s x <;>
        simp [startAll, hg, sampleService_errored h]
    rw [hstep, ih]

lemma startAll_fail (ws : List Who) (s : Sim) : startAll ws (fail s) = fail s :=
  startAll_errored rfl

lemma finishService_eq (w : Who) (s : Sim) (t arr : ℚ) (hw : getC s w = .inService t arr) :
    finishService w s =
      (fun r : Sim × List Who =>
        match r.1.scenario with
        | Scenario.rateLimiting => sampleGap w (startAll r.2 r.1)
        | Scenario.adaptiveScaling => startAll r.2 (scale_resources (sampleGap w r.1)))
      (releaseSlot { s with
          respTimes := s.respTimes ++ [s.now - arr],
          log := s.log ++ [Entry.processedReq w s.now],
          processed := s.processed + (if w = .legit then 1 else 0) }) := by
  cases w <;> simp only [getC] at hw <;> simp [finishService, getC, hw, releaseSlot]

lemma inv_exec_completion_legit {s : Sim} {t arr : ℚ} (h : Inv s) (herr : s.errored = false)
    (hw : s.legit = .inService t arr) : Inv (execEvent t (.completion .legit) s) := by
  obtain ⟨hcap, hbase, htmr, hule, hsum, hup, hdrop, heft, hsync⟩ := h
  obtain ⟨husers, hql, hqa, hacct, hresp⟩ := hsync herr
  have hbQL : bcQ s.legit = 0 := by rw [hw]; rfl
  have hbSL : bcS s.legit = 1 := by rw [hw]; rfl
  have hAe := bcS_add_bcQ_le_one s.attacker
  have hlenq : s.queue.length = bcQ s.attacker := by
    have hh := countWho_add_length s.queue
    rw [hql, hqa, hbQL] at hh
    omega
  have hacct2 : legitArrivalCount s.log = s.processed + s.dropped + 1 := by
    rw [hacct]
    simp [hbQL, hbSL]
  have hqcase : s.queue = [] ∨ s.queue = [Who.attacker] := by
    rcases list_len_le_one s.queue (by omega) with h0 | ⟨x, hx⟩
    · exact Or.inl h0
    · rcases who_cases x with rfl | rfl
      · rw [hx] at hql
        simp [hbQL] at hql
      · exact Or.inr hx
  show Inv (finishService .legit { s with now := t })
  rw [finishService_eq .legit { s with now := t } t arr (by simp [getC, hw])]
  simp only [releaseSlot]
  rcases hqcase with hq | hq
  · -- nobody is waiting: pure release
    rw [hq, grantLoop_nil]
    have hbQA : bcQ s.attacker = 0 := by
      rw [← hqa, hq]
      rfl
    cases hsc : s.scenario <;> simp only [hsc, startAll_nil]
    · -- Rate-Limiting: the loop resamples its gap
      refine sampleGap_cases .legit _ Inv herr ?_ ?_
      · refine ⟨hcap, hbase, htmr, ?_, ?_, by simp [fail, hup], ?_, fun _ => rfl,
          fun hc => absurd hc (by simp [fail])⟩
        · show s.users - 1 ≤ s.capacity
          omega
        · show s.users - 1 + ([] : List Who).length ≤ 2
          simp
          omega
        · intro had
          simp [fail] at had
      · intro g hg
        refine ⟨hcap, hbase, htmr, ?_, ?_, by simp [setC, hup], ?_,
          fun hc => absurd hc (by simp [setC, herr]), fun _ => ?_⟩
        · show s.users - 1 ≤ s.capacity
          omega
        · show s.users - 1 + ([] : List Who).length ≤ 2
          simp
          omega
        · intro had
          simp [setC] at had
        · refine ⟨?_, ?_, ?_, ?_, ?_⟩ <;>
            simp [setC, hbQA, hacct2] <;>
            omega
    · -- Adaptive Scaling: gap first, then the scale check runs
      refine sampleGap_cases .legit _ (fun s2 => Inv (scale_resources s2)) herr ?_ ?_
      · show Inv _
        rw [scale_resources_fail]
        refine ⟨hcap, hbase, htmr, ?_, ?_, by simp [fail, hup], ?_, fun _ => rfl,
          fun hc => absurd hc (by simp [fail])⟩
        · show s.users - 1 ≤ s.capacity
          omega
        · show s.users - 1 + ([] : List Who).length ≤ 2
          simp
          omega
        · intro had
          exact hdrop hsc
      · intro g hg
        show Inv _
        rw [scale_resources_no _ (by simp [setC, herr]) (by simp [setC, QUEUE_THRESHOLD])]
        refine ⟨hcap, hbase, htmr, ?_, ?_, by simp [setC, hup], ?_,
          fun hc => absurd hc (by simp [setC, herr]), fun _ => ?_⟩
        · show s.users - 1 ≤ s.capacity
          omega
        · show s.users - 1 + ([] : List Who).length ≤ 2
          simp
          omega
        · intro had
          exact hdrop hsc
        · refine ⟨?_, ?_, ?_, ?_, ?_⟩ <;>
            simp [setC, hbQA, hacct2] <;>
            omega
  · -- the attacker is waiting: it is granted the slot at this instant
    have hbQA : bcQ s.attacker = 1 := by
      rw [← hqa, hq]
      rfl
    obtain ⟨arr2, hA⟩ := bcQ_eq_one hbQA
    have hbSA : bcS s.attacker = 0 := by rw [hA]; rfl
    have husers1 : s.users = 1 := by omega
    rw [hq, grantLoop_one_grant _ _ (by show s.users - 1 < s.capacity; omega)]
    cases hsc : s.scenario <;> simp only [hsc]
    · -- Rate-Limiting: waiter samples service, then the loop resamples
      rw [startAll_one_queued .attacker arr2 _ (by simp [getC, hA])]
      refine sampleService_cases .attacker arr2 _ (fun s2 => Inv (sampleGap .legit s2))
        herr ?_ ?_
      · show Inv _
        rw [sampleGap_fail]
        refine ⟨hcap, hbase, htmr, ?_, ?_, by simp [fail, hup], ?_, fun _ => rfl,
          fun hc => absurd hc (by simp [fail])⟩
        · show s.users - 1 + 1 ≤ s.capacity
          omega
        · show s.users - 1 + 1 + ([] : List Who).length ≤ 2
          simp
          omega
        · intro had
          simp [fail] at had
      · intro d hd
        show Inv _
        refine sampleGap_cases .legit _ Inv (by simp [setC, herr]) ?_ ?_
        · refine ⟨hcap, hbase, htmr, ?_, ?_, by simp [fail, setC, hup], ?_, fun _ => rfl,
            fun hc => absurd hc (by simp [fail])⟩
          · show s.users - 1 + 1 ≤ s.capacity
            omega
          · show s.users - 1 + 1 + ([] : List Who).length ≤ 2
            simp
            omega
          · intro had
            simp [fail] at had
        · intro g hg
          refine ⟨hcap, hbase, htmr, ?_, ?_, by simp [setC, hup], ?_,
            fun hc => absurd hc (by simp [setC, herr]), fun _ => ?_⟩
          · show s.users - 1 + 1 ≤ s.capacity
            omega
          · show s.users - 1 + 1 + ([] : List Who).length ≤ 2
            simp
            omega
          · intro had
            simp [setC] at had
          · refine ⟨?_, ?_, ?_, ?_, ?_⟩ <;>
              simp [setC, hacct2] <;>
              omega
    · -- Adaptive Scaling: loop resamples, scale check runs, waiter starts
      refine sampleGap_cases .legit _
        (fun s2 => Inv (startAll [Who.attacker] (scale_resources s2))) herr ?_ ?_
      · show Inv _
        rw [scale_resources_fail, startAll_fail]
        refine ⟨hcap, hbase, htmr, ?_, ?_, by simp [fail, hup], ?_, fun _ => rfl,
          fun hc => absurd hc (by simp [fail])⟩
        · show s.users - 1 + 1 ≤ s.capacity
          omega
        · show s.users - 1 + 1 + ([] : List Who).length ≤ 2
          simp
          omega
        · intro had
          exact hdrop hsc
      · intro g hg
        show Inv _
        rw [scale_resources_no _ (by simp [setC, herr]) (by simp [setC, QUEUE_THRESHOLD])]
        rw [startAll_one_queued .attacker arr2 _ (by simp [setC, getC, hA])]
        refine sampleService_cases .attacker arr2 _ Inv (by simp [setC, herr]) ?_ ?_
        · refine ⟨hcap, hbase, htmr, ?_, ?_, by simp [fail, setC, hup], ?_, fun _ => rfl,
            fun hc => absurd hc (by simp [fail])⟩
          · show s.users - 1 + 1 ≤ s.capacity
            omega
          · show s.users - 1 + 1 + ([] : List Who).length ≤ 2
            simp
            omega
          · intro had
            exact hdrop hsc
        · intro d hd
          refine ⟨hcap, hbase, htmr, ?_, ?_, by simp [setC, hup], ?_,
            fun hc => absurd hc (by simp [setC, herr]), fun _ => ?_⟩
          · show s.users - 1 + 1 ≤ s.capacity
            omega
          · show s.users - 1 + 1 + ([] : List Who).length ≤ 2
            simp
            omega
          · intro had
            exact hdrop hsc
          · refine ⟨?_, ?_, ?_, ?_, ?_⟩ <;>
              simp [setC, hacct2] <;>
              omega

lemma inv_exec_completion_attacker {s : Sim} {t arr : ℚ} (h : Inv s) (herr : s.errored = false)
    (hw : s.attacker = .inService t arr) : Inv (execEvent t (.completion .attacker) s) := by
  obtain ⟨hcap, hbase, htmr, hule, hsum, hup, hdrop, heft, hsync⟩ := h
  obtain ⟨husers, hql, hqa, hacct, hresp⟩ := hsync herr
  have hbQA : bcQ s.attacker = 0 := by rw [hw]; rfl
  have hbSA : bcS s.attacker = 1 := by rw [hw]; rfl
  have hLe := bcS_add_bcQ_le_one s.legit
  have hbSL : bcS s.legit = 0 := by omega
  have hlenq : s.queue.length = bcQ s.legit := by
    have hh := countWho_add_length s.queue
    rw [hql, hqa, hbQA] at hh
    omega
  have hqcase : s.queue = [] ∨ s.queue = [Who.legit] := by
    rcases list_len_le_one s.queue (by omega) with h0 | ⟨x, hx⟩
    · exact Or.inl h0
    · rcases who_cases x with rfl | rfl
      · exact Or.inr hx
      · rw [hx] at hqa
        simp [hbQA] at hqa
  show Inv (finishService .attacker { s with now := t })
  rw [finishService_eq .attacker { s with now := t } t arr (by simp [getC, hw])]
  simp only [releaseSlot]
  rcases hqcase with hq | hq
  · -- nobody is waiting: pure release
    rw [hq, grantLoop_nil]
    have hbQL : bcQ s.legit = 0 := by
      rw [← hql, hq]
      rfl
    cases hsc : s.scenario <;> simp only [hsc, startAll_nil]
    · -- Rate-Limiting: the attacker loop resamples its gap
      refine sampleGap_cases .attacker _ Inv herr ?_ ?_
      · refine ⟨hcap, hbase, htmr, ?_, ?_, by simp [fail, hup], ?_, fun _ => rfl,
          fun hc => absurd hc (by simp [fail])⟩
        · show s.users - 1 ≤ s.capacity
          omega
        · show s.users - 1 + ([] : List Who).length ≤ 2
          simp
          omega
        · intro had
          simp [fail] at had
      · intro g hg
        refine ⟨hcap, hbase, htmr, ?_, ?_, by simp [setC, hup], ?_,
          fun hc => absurd hc (by simp [setC, herr]), fun _ => ?_⟩
        · show s.users - 1 ≤ s.capacity
          omega
        · show s.users - 1 + ([] : List Who).length ≤ 2
          simp
          omega
        · intro had
          simp [setC] at had
        · refine ⟨?_, ?_, ?_, ?_, ?_⟩ <;>
            simp [setC, hbQL, hacct] <;>
            omega
    · -- Adaptive Scaling: gap first, then the scale check runs
      refine sampleGap_cases .attacker _ (fun s2 => Inv (scale_resources s2)) herr ?_ ?_
      · show Inv _
        rw [scale_resources_fail]
        refine ⟨hcap, hbase, htmr, ?_, ?_, by simp [fail, hup], ?_, fun _ => rfl,
          fun hc => absurd hc (by simp [fail])⟩
        · show s.users - 1 ≤ s.capacity
          omega
        · show s.users - 1 + ([] : List Who).length ≤ 2
          simp
          omega
        · intro had
          exact hdrop hsc
      · intro g hg
        show Inv _
        rw [scale_resources_no _ (by simp [setC, herr]) (by simp [setC, QUEUE_THRESHOLD])]
        refine ⟨hcap, hbase, htmr, ?_, ?_, by simp [setC, hup], ?_,
          fun hc => absurd hc (by simp [setC, herr]), fun _ => ?_⟩
        · show s.users - 1 ≤ s.capacity
          omega
        · show s.users - 1 + ([] : List Who).length ≤ 2
          simp
          omega
        · intro had
          exact hdrop hsc
        · refine ⟨?_, ?_, ?_, ?_, ?_⟩ <;>
            simp [setC, hbQL, hacct] <;>
            omega
  · -- the legitimate client is waiting: it is granted the slot now
    have hbQL : bcQ s.legit = 1 := by
      rw [← hql, hq]
      rfl
    obtain ⟨arr2, hA⟩ := bcQ_eq_one hbQL
    have husers1 : s.users = 1 := by omega
    have hacct2 : legitArrivalCount s.log = s.processed + s.dropped + 1 := by
      rw [hacct]
      simp [hbQL, hbSL]
    rw [hq, grantLoop_one_grant _ _ (by show s.users - 1 < s.capacity; omega)]
    cases hsc : s.scenario <;> simp only [hsc]
    · -- Rate-Limiting: waiter samples service, then the loop resamples
      rw [startAll_one_queued .legit arr2 _ (by simp [getC, hA])]
      refine sampleService_cases .legit arr2 _ (fun s2 => Inv (sampleGap .attacker s2))
        herr ?_ ?_
      · show Inv _
        rw [sampleGap_fail]
        refine ⟨hcap, hbase, htmr, ?_, ?_, by simp [fail, hup], ?_, fun _ => rfl,
          fun hc => absurd hc (by simp [fail])⟩
        · show s.users - 1 + 1 ≤ s.capacity
          omega
        · show s.users - 1 + 1 + ([] : List Who).length ≤ 2
          simp
          omega
        · intro had
          simp [fail] at had
      · intro d hd
        show Inv _
        refine sampleGap_cases .attacker _ Inv (by simp [setC, herr]) ?_ ?_
        · refine ⟨hcap, hbase, htmr, ?_, ?_, by simp [fail, setC, hup], ?_, fun _ => rfl,
            fun hc => absurd hc (by simp [fail])⟩
          · show s.users - 1 + 1 ≤ s.capacity
            omega
          · show s.users - 1 + 1 + ([] : List Who).length ≤ 2
            simp
            omega
          · intro had
            simp [fail] at had
        · intro g hg
          refine ⟨hcap, hbase, htmr, ?_, ?_, by simp [setC, hup], ?_,
            fun hc => absurd hc (by simp [setC, herr]), fun _ => ?_⟩
          · show s.users - 1 + 1 ≤ s.capacity
            omega
          · show s.users - 1 + 1 + ([] : List Who).length ≤ 2
            simp
            omega
          · intro had
            simp [setC] at had
          · refine ⟨?_, ?_, ?_, ?_, ?_⟩ <;>
              simp [setC, hacct2] <;>
              omega
    · -- Adaptive Scaling: loop resamples, scale check runs, waiter starts
      refine sampleGap_cases .attacker _
        (fun s2 => Inv (startAll [Who.legit] (scale_resources s2))) herr ?_ ?_
      · show Inv _
        rw [scale_resources_fail, startAll_fail]
        refine ⟨hcap, hbase, htmr, ?_, ?_, by simp [fail, hup], ?_, fun _ => rfl,
          fun hc => absurd hc (by simp [fail])⟩
        · show s.users - 1 + 1 ≤ s.capacity
          omega
        · show s.users - 1 + 1 + ([] : List Who).length ≤ 2
          simp
          omega
        · intro had
          exact hdrop hsc
      · intro g hg
        show Inv _
        rw [scale_resources_no _ (by simp [setC, herr]) (by simp [setC, QUEUE_THRESHOLD])]
        rw [startAll_one_queued .legit arr2 _ (by simp [setC, getC, hA])]
        refine sampleService_cases .legit arr2 _ Inv (by simp [setC, herr]) ?_ ?_
        · refine ⟨hcap, hbase, htmr, ?_, ?_, by simp [fail, setC, hup], ?_, fun _ => rfl,
            fun hc => absurd hc (by simp [fail])⟩
          · show s.users - 1 + 1 ≤ s.capacity
            omega
          · show s.users - 1 + 1 + ([] : List Who).length ≤ 2
            simp
            omega
          · intro had
            exact hdrop hsc
        · intro d hd
          refine ⟨hcap, hbase, htmr, ?_, ?_, by simp [setC, hup], ?_,
            fun hc => absurd hc (by simp [setC, herr]), fun _ => ?_⟩
          · show s.users - 1 + 1 ≤ s.capacity
            omega
          · show s.users - 1 + 1 + ([] : List Who).length ≤ 2
            simp
            omega
          · intro had
            exact hdrop hsc
          · refine ⟨?_, ?_, ?_, ?_, ?_⟩ <;>
              simp [setC, hacct2] <;>
              omega

lemma inv_exec_start {s : Sim} {w : Who} {t : ℚ} (h : Inv s) (herr : s.errored = false)
    (hw : getC s w = .start) : Inv (execEvent t (.startProc w) s) := by
  obtain ⟨hcap, hbase, htmr, hule, hsum, hup, hdrop, heft, hsync⟩ := h
  obtain ⟨husers, hql, hqa, hacct, hresp⟩ := hsync herr
  show Inv (sampleGap w { s with now := t })
  have herr2 : ({ s with now := t } : Sim).errored = false := herr
  rcases sampleGap_spec w { s with now := t } herr2 with ⟨heq, -⟩ | ⟨heq, -⟩ <;> rw [heq]
  · exact ⟨hcap, hbase, htmr, hule, hsum, hup, hdrop, fun _ => rfl,
      fun hc => absurd hc (by simp [fail])⟩
  · cases w <;> simp only [getC] at hw
    · refine ⟨hcap, hbase, htmr, hule, hsum, hup, hdrop, heft, fun _ => ?_⟩
      refine ⟨?_, ?_, ?_, ?_, ?_⟩ <;>
        simp [setC, bcS, bcQ, bcP, hw] <;>
        simp [hw, bcS, bcQ, bcP] at husers hql hqa hacct hresp <;>
        omega
    · refine ⟨hcap, hbase, htmr, hule, hsum, hup, hdrop, heft, fun _ => ?_⟩
      refine ⟨?_, ?_, ?_, ?_, ?_⟩ <;>
        simp [setC, bcS, bcQ, bcP, hw] <;>
        simp [hw, bcS, bcQ, bcP] at husers hql hqa hacct hresp <;>
        omega

/-- One engine step preserves the run invariant. -/
lemma inv_step {s : Sim} (h : Inv s) : Inv (step s) := by
  obtain ⟨hcap, hbase, htmr, hule, hsum, hup, hdrop, heft, hsync⟩ := h
  by_cases hf : s.finished = true
  · rw [show step s = s from by simp [step, hf]]
    exact ⟨hcap, hbase, htmr, hule, hsum, hup, hdrop, heft, hsync⟩
  · have hf2 : s.finished = false := by
      revert hf
      cases s.finished <;> simp
    have herr : s.errored = false := by
      cases he : s.errored
      · rfl
      · rw [heft he] at hf2
        cases hf2
    have h : Inv s := ⟨hcap, hbase, htmr, hule, hsum, hup, hdrop, heft, hsync⟩
    unfold step
    simp only [hf2, Bool.false_eq_true, if_false]
    cases hne : nextEvent s with
    | none =>
      simp only [hne]
      exact ⟨hcap, hbase, htmr, hule, hsum, hup, hdrop, fun _ => rfl, fun he => hsync he⟩
    | some te =>
      obtain ⟨t, ev⟩ := te
      simp only [hne]
      by_cases hor : SIM_TIME ≤ t
      · rw [if_pos hor]
        exact ⟨hcap, hbase, htmr, hule, hsum, hup, hdrop, fun _ => rfl, fun he => hsync he⟩
      · rw [if_neg hor]
        cases ev with
        | startProc w =>
          rcases nextEvent_mem hne with hm | hm | hm
          · obtain ⟨hww, hc, -⟩ := evOf_inv_start hm
            subst hww
            exact inv_exec_start h herr hc
          · obtain ⟨hww, hc, -⟩ := evOf_inv_start hm
            subst hww
            exact inv_exec_start h herr hc
          · exact absurd (timerEv_reset hm) (by simp)
        | arrival w =>
          rcases nextEvent_mem hne with hm | hm | hm
          · obtain ⟨hww, hc⟩ := evOf_inv_arrival hm
            subst hww
            exact inv_exec_arrival h herr hc
          · obtain ⟨hww, hc⟩ := evOf_inv_arrival hm
            subst hww
            exact inv_exec_arrival h herr hc
          · exact absurd (timerEv_reset hm) (by simp)
        | completion w =>
          rcases nextEvent_mem hne with hm | hm | hm
          · obtain ⟨hww, arr, hc⟩ := evOf_inv_completion hm
            subst hww
            exact inv_exec_completion_legit h herr hc
          · obtain ⟨hww, arr, hc⟩ := evOf_inv_completion hm
            subst hww
            exact inv_exec_completion_attacker h herr hc
          · exact absurd (timerEv_reset hm) (by simp)
        | scaleReset =>
          rcases nextEvent_mem hne with hm | hm | hm
          · exact absurd hm evOf_not_scaleReset
          · exact absurd hm evOf_not_scaleReset
          · rw [htmr] at hm
            simp [timerEv, listMin] at hm

/-- The run invariant holds after every number of engine steps. -/
lemma inv_runFor (sc : Scenario) (uR aR : ℚ) (st : ℕ → ℚ) (n : ℕ) :
    Inv (runFor sc uR aR st n) := by
  induction n with
  | zero => exact inv_initSim sc uR aR st
  | succ n ih => exact inv_step ih

/-! ### Frame lemmas: fields the helpers do not touch -/

lemma sampleGap_frame (w : Who) (s : Sim) :
    (sampleGap w s).scenario = s.scenario ∧ (sampleGap w s).now = s.now ∧
    (sampleGap w s).stream = s.stream ∧ (sampleGap w s).userRate = s.userRate ∧
    (sampleGap w s).attackRate = s.attackRate ∧ (sampleGap w s).processed = s.processed ∧
    (sampleGap w s).respTimes = s.respTimes ∧ (sampleGap w s).dropped = s.dropped ∧
    (sampleGap w s).log = s.log ∧ (sampleGap w s).queue = s.queue ∧
    (sampleGap w s).users = s.users ∧ (sampleGap w s).capacity = s.capacity ∧
    (sampleGap w s).baseCapacity = s.baseCapacity ∧
    (sampleGap w s).scaleTimers = s.scaleTimers ∧ s.idx ≤ (sampleGap w s).idx ∧
    (sampleGap w s).scaling = s.scaling := by
  by_cases herr : s.errored = true
  · rw [sampleGap_errored herr]
    simp
  · have herr2 : s.errored = false := by
      revert herr
      cases s.errored <;> simp
    rcases sampleGap_spec w s herr2 with ⟨heq, -⟩ | ⟨heq, -⟩ <;> rw [heq] <;>
      simp [fail]

lemma sampleService_frame (w : Who) (arr : ℚ) (s : Sim) :
    (sampleService w arr s).scenario = s.scenario ∧ (sampleService w arr s).now = s.now ∧
    (sampleService w arr s).stream = s.stream ∧
    (sampleService w arr s).userRate = s.userRate ∧
    (sampleService w arr s).attackRate = s.attackRate ∧
    (sampleService w arr s).processed = s.processed ∧
    (sampleService w arr s).respTimes = s.respTimes ∧
    (sampleService w arr s).dropped = s.dropped ∧
    (sampleService w arr s).log = s.log ∧ (sampleService w arr s).queue = s.queue ∧
    (sampleService w arr s).users = s.users ∧
    (sampleService w arr s).capacity = s.capacity ∧
    (sampleService w arr s).baseCapacity = s.baseCapacity ∧
    (sampleService w arr s).scaleTimers = s.scaleTimers ∧
    s.idx ≤ (sampleService w arr s).idx ∧
    (sampleService w arr s).scaling = s.scaling := by
  by_cases herr : s.errored = true
  · rw [sampleService_errored herr]
    simp
  · have herr2 : s.errored = false := by
      revert herr
      cases s.errored <;> simp
    rcases sampleService_spec w arr s herr2 with ⟨heq, -⟩ | ⟨heq, -⟩ <;> rw [heq] <;>
      simp [fail]

lemma scale_resources_frame (s : Sim) :
    (scale_resources s).scenario = s.scenario ∧ (scale_resources s).now = s.now ∧
    (scale_resources s).stream = s.stream ∧ (scale_resources s).userRate = s.userRate ∧
    (scale_resources s).attackRate = s.attackRate ∧
    (scale_resources s).processed = s.processed ∧
    (scale_resources s).respTimes = s.respTimes ∧
    (scale_resources s).dropped = s.dropped ∧ (scale_resources s).queue = s.queue ∧
    (scale_resources s).users = s.users ∧ (scale_resources s).idx = s.idx ∧
    (scale_resources s).capacity = s.capacity ∧
    (scale_resources s).legit = s.legit ∧ (scale_resources s).attacker = s.attacker ∧
    (scale_resources s).baseCapacity = s.baseCapacity ∧
    (scale_resources s).scaling = s.scaling := by
  by_cases herr : s.errored = true
  · rw [scale_resources_errored herr]
    simp
  · have herr2 : s.errored = false := by
      revert herr
      cases s.errored <;> simp
    by_cases hcond : s.scaling = true ∧ QUEUE_THRESHOLD ≤ s.queue.length
    · rw [scale_resources_yes s herr2 hcond]
      simp [fail]
    · rw [scale_resources_no s herr2 hcond]
      simp

lemma grantLoop_frame (l : List Who) (s : Sim) :
    (grantLoop l s).1.scenario = s.scenario ∧ (grantLoop l s).1.now = s.now ∧
    (grantLoop l s).1.stream = s.stream ∧ (grantLoop l s).1.userRate = s.userRate ∧
    (grantLoop l s).1.attackRate = s.attackRate ∧
    (grantLoop l s).1.processed = s.processed ∧
    (grantLoop l s).1.respTimes = s.respTimes ∧ (grantLoop l s).1.dropped = s.dropped ∧
    (grantLoop l s).1.idx = s.idx ∧ (grantLoop l s).1.errored = s.errored ∧
    (grantLoop l s).1.legit = s.legit ∧ (grantLoop l s).1.attacker = s.attacker ∧
    (grantLoop l s).1.capacity = s.capacity ∧
    (grantLoop l s).1.baseCapacity = s.baseCapacity ∧
    (grantLoop l s).1.scaleTimers = s.scaleTimers ∧
    (grantLoop l s).1.scaling = s.scaling := by
  induction l generalizing s with
  | nil => simp [grantLoop]
  | cons x xs ih =>
    unfold grantLoop
    split
    · exact ih _
    · simp

lemma startAll_frame (ws : List Who) (s : Sim) :
    (startAll ws s).scenario = s.scenario ∧ (startAll ws s).now = s.now ∧
    (startAll ws s).stream = s.stream ∧ (startAll ws s).userRate = s.userRate ∧
    (startAll ws s).attackRate = s.attackRate ∧ (startAll ws s).processed = s.processed ∧
    (startAll ws s).respTimes = s.respTimes ∧ (startAll ws s).dropped = s.dropped ∧
    (startAll ws s).log = s.log ∧ (startAll ws s).queue = s.queue ∧
    (startAll ws s).users = s.users ∧ (startAll ws s).capacity = s.capacity ∧
    (startAll ws s).baseCapacity = s.baseCapacity ∧
    (startAll ws s).scaleTimers = s.scaleTimers ∧ s.idx ≤ (startAll ws s).idx ∧
    (startAll ws s).scaling = s.scaling := by
  induction ws generalizing s with
  | nil => simp
  | cons x xs ih =>
    have hstep : startAll (x :: xs) s = startAll xs
        (match getC s x with
          | .queued arrivedAt => sampleService x arrivedAt s
          | _ => s) := rfl
    rw [hstep]
    cases hg : getC s x <;> simp only [hg]
    case queued arr2 =>
      obtain ⟨a1, b1, c1, d1, e1, f1, g1, i1, j1, k1, l1, m1, n1, o1, p1, q1⟩ :=
        ih (sampleService x arr2 s)
      obtain ⟨a2, b2, c2, d2, e2, f2, g2, i2, j2, k2, l2, m2, n2, o2, p2, q2⟩ :=
        sampleService_frame x arr2 s
      exact ⟨a1.trans a2, b1.trans b2, c1.trans c2, d1.trans d2, e1.trans e2, f1.trans f2,
        g1.trans g2, i1.trans i2, j1.trans j2, k1.trans k2, l1.trans l2, m1.trans m2,
        n1.trans n2, o1.trans o2, le_trans p2 p1, q1.trans q2⟩
    all_goals exact ih s

lemma requestSlot_scenario (w : Who) (arr : ℚ) (s : Sim) :
    (requestSlot w arr s).scenario = s.scenario := by
  unfold requestSlot
  split
  · rfl
  · split
    · exact (sampleService_frame w arr _).1
    · simp

lemma rate_limited_request_scenario (w : Who) (s : Sim) :
    (rate_limited_request w s).1.scenario = s.scenario := by
  unfold rate_limited_request
  split
  · rfl
  · exact requestSlot_scenario w s.now s

lemma scenario_two (s : Sim) : s.scenario = .rateLimiting ∨ s.scenario = .adaptiveScaling := by
  cases s.scenario
  · exact Or.inl rfl
  · exact Or.inr rfl

lemma handleArrival_scenario (w : Who) (s : Sim) :
    (handleArrival w s).scenario = s.scenario := by
  rcases scenario_two s with hsc | hsc
  · by_cases hdc : w = .legit ∧ RATE_LIMIT ≤ s.users
    · rw [handleArrival_drop w s hsc hdc.1 hdc.2]
      exact (sampleGap_frame _ _).1
    · rw [handleArrival_rl_request w s hsc hdc]
      exact requestSlot_scenario _ _ _
  · rw [handleArrival_ad_request w s hsc]
    exact requestSlot_scenario _ _ _

lemma finishService_scenario (w : Who) (s : Sim) :
    (finishService w s).scenario = s.scenario := by
  cases hg : getC s w with
  | inService f a =>
    rw [finishService_eq w s f a hg]
    show (match (releaseSlot _).1.scenario with
      | Scenario.rateLimiting => sampleGap w (startAll (releaseSlot _).2 (releaseSlot _).1)
      | Scenario.adaptiveScaling =>
        startAll (releaseSlot _).2 (scale_resources (sampleGap w (releaseSlot _).1))).scenario
      = s.scenario
    split
    · exact (sampleGap_frame w _).1.trans ((startAll_frame _ _).1.trans
        ((grantLoop_frame _ _).1.trans rfl))
    · exact (startAll_frame _ _).1.trans ((scale_resources_frame _).1.trans
        ((sampleGap_frame w _).1.trans ((grantLoop_frame _ _).1.trans rfl)))
  | start => simp [finishService, hg]
  | gap t2 => simp [finishService, hg]
  | queued a2 => simp [finishService, hg]

lemma execEvent_scenario (t : ℚ) (ev : Ev) (s : Sim) :
    (execEvent t ev s).scenario = s.scenario := by
  cases ev with
  | startProc w => exact (sampleGap_frame w _).1
  | arrival w => exact handleArrival_scenario w _
  | completion w => exact finishService_scenario w _
  | scaleReset => rfl

lemma step_scenario (s : Sim) : (step s).scenario = s.scenario := by
  unfold step
  split
  · rfl
  · split
    · rfl
    · split
      · rfl
      · exact execEvent_scenario _ _ _

lemma runFor_scenario (sc : Scenario) (uR aR : ℚ) (st : ℕ → ℚ) (n : ℕ) :
    (runFor sc uR aR st n).scenario = sc := by
  induction n with
  | zero => rfl
  | succ n ih => exact (step_scenario _).trans ih

lemma bcP_le_one (c : CState) : bcP c ≤ 1 := by
  cases c <;> simp

/-! ### The claims -/

/-- Claim C1, counterexample: in the Rate-Limiting run driven by the
stream `streamA` (first legitimate gap 1, attacker out of horizon,
service duration 100), exactly one Legitimate request is emitted before
the horizon, but it is still in service when the horizon arrives, so
the run finishes with `processed + dropped = 0 ≠ 1`: the claimed
equation `processed + dropped = number of Legitimate arrivals` is
false. -/
theorem C1_counterexample :
    legitArrivalCount (runFor .rateLimiting 1 1 streamA 6).log = 1 ∧
    (runFor .rateLimiting 1 1 streamA 6).processed = 0 ∧
    (runFor .rateLimiting 1 1 streamA 6).dropped = 0 ∧
    (runFor .rateLimiting 1 1 streamA 6).finished = true ∧
    (runFor .rateLimiting 1 1 streamA 6).errored = false ∧
    (runFor .rateLimiting 1 1 streamA 6).processed + (runFor .rateLimiting 1 1 streamA 6).dropped
      ≠ legitArrivalCount (runFor .rateLimiting 1 1 streamA 6).log := by
  decide

/-- Claim C1, amended: in every run of `run_simulation` (either
scenario, any rate pair, any fixed random stream, any number of engine
steps) that has not raised an exception, `processed_count +
dropped_count` plus the number of Legitimate requests still being
handled (0 or 1) equals the total number of Legitimate arrivals emitted
so far; no Legitimate request is counted twice, but a request that is
still queued or in service at the horizon is counted neither processed
nor dropped. -/
theorem C1_amended (sc : Scenario) (uR aR : ℚ) (st : ℕ → ℚ) (n : ℕ)
    (h : (runFor sc uR aR st n).errored = false) :
    legitArrivalCount (runFor sc uR aR st n).log =
      (runFor sc uR aR st n).processed + (runFor sc uR aR st n).dropped +
        pendingLegit (runFor sc uR aR st n) ∧
    pendingLegit (runFor sc uR aR st n) ≤ 1 := by
  obtain ⟨-, -, -, -, -, -, -, -, hsync⟩ := inv_runFor sc uR aR st n
  exact ⟨(hsync h).2.2.2.1, bcP_le_one _⟩

/-- Witness for C1's amended theorem at a concrete run. -/
theorem C1_amended_witness :
    legitArrivalCount (runFor .rateLimiting 1 1 streamA 6).log =
      (runFor .rateLimiting 1 1 streamA 6).processed +
        (runFor .rateLimiting 1 1 streamA 6).dropped +
        pendingLegit (runFor .rateLimiting 1 1 streamA 6) ∧
    pendingLegit (runFor .rateLimiting 1 1 streamA 6) ≤ 1 :=
  C1_amended .rateLimiting 1 1 streamA 6 (by decide)

/-- Claim C3 (confirmed): in every Adaptive Scaling run the Legitimate
dropped counter is never incremented — it is 0 after every number of
engine steps, for every rate pair and stream — and the dropped count
returned by `run_simulation` is 0. -/
theorem C3_adaptive_never_drops (uR aR : ℚ) (st : ℕ → ℚ) (n : ℕ) :
    (runFor .adaptiveScaling uR aR st n).dropped = 0 ∧
    (∀ a p d, run_simulation .adaptiveScaling uR aR st n = .ok (a, p, d) → d = 0) := by
  obtain ⟨-, -, -, -, -, -, hdrop, -, -⟩ := inv_runFor .adaptiveScaling uR aR st n
  have hz : (runFor .adaptiveScaling uR aR st n).dropped = 0 :=
    hdrop (runFor_scenario _ _ _ _ _)
  refine ⟨hz, fun a p d hok => ?_⟩
  by_cases herr : (runFor .adaptiveScaling uR aR st n).errored = true
  · rw [show run_simulation .adaptiveScaling uR aR st n = .error "simulation runtime error" from by
      simp [run_simulation, herr]] at hok
    cases hok
  · have herr2 : (runFor .adaptiveScaling uR aR st n).errored = false := by
      revert herr
      cases (runFor .adaptiveScaling uR aR st n).errored <;> simp
    rw [show run_simulation .adaptiveScaling uR aR st n =
        .ok (avgOf (runFor .adaptiveScaling uR aR st n),
             (runFor .adaptiveScaling uR aR st n).processed,
             (runFor .adaptiveScaling uR aR st n).dropped) from by
      simp [run_simulation, herr2]] at hok
    simp at hok
    rw [← hok.2.2]
    exact hz

/-- Witness for C3 at a concrete Adaptive Scaling run. -/
theorem C3_witness :
    (runFor .adaptiveScaling 1 (1/1000) streamB 30).dropped = 0 ∧
    resultTriple (run_simulation .adaptiveScaling 1 (1/1000) streamB 30) = some (2, 12, 0) := by
  refine ⟨(C3_adaptive_never_drops 1 (1/1000) streamB 30).1, by decide⟩

/-- Claim C4 (confirmed): in every run of either scenario as wired in
the source (one `legitimate_user` process and one `attacker` process,
each of which waits for its current request to be fully handled before
sampling the next inter-arrival gap), at most two requests ever contend
for the server at any instant (`count + queue length ≤ 2`), the wait
queue never reaches `QUEUE_THRESHOLD = 3`, `scale_resources` never
scales up (no scale-up event is ever logged and no scale-down timer is
ever pending), and the capacity stays `SERVER_INITIAL_CAPACITY`
throughout. -/
theorem C4_no_scaling_ever (sc : Scenario) (uR aR : ℚ) (st : ℕ → ℚ) (n : ℕ) :
    (runFor sc uR aR st n).capacity = SERVER_INITIAL_CAPACITY ∧
    (runFor sc uR aR st n).queue.length < QUEUE_THRESHOLD ∧
    (runFor sc uR aR st n).users + (runFor sc uR aR st n).queue.length ≤ 2 ∧
    scaleUpCount (runFor sc uR aR st n).log = 0 ∧
    (runFor sc uR aR st n).scaleTimers = [] := by
  obtain ⟨hcap, -, htmr, -, hsum, hup, -, -, -⟩ := inv_runFor sc uR aR st n
  refine ⟨hcap, ?_, hsum, hup, htmr⟩
  show _ < 3
  omega

/-- Claim C8 (confirmed): the pool's in-service count never exceeds its
current capacity, at any instant of any run.  (In the wired runs the
capacity never drops — scaling never triggers — so the stronger,
exception-free bound holds, which implies the claim.) -/
theorem C8_count_le_capacity (sc : Scenario) (uR aR : ℚ) (st : ℕ → ℚ) (n : ℕ) :
    (runFor sc uR aR st n).users ≤ (runFor sc uR aR st n).capacity :=
  (inv_runFor sc uR aR st n).2.2.2.1

/-- Claim C10 (confirmed): the simulation is a pure function of the
scenario, the rates and the seeded random stream — two runs with
identical parameters and identical streams return identical
`(avg_response_time, processed, dropped)` results. -/
theorem C10_deterministic (sc : Scenario) (uR aR : ℚ) (st : ℕ → ℚ) (fuel : ℕ)
    (r1 r2 : Except String (ℚ × ℕ × ℕ))
    (h1 : r1 = run_simulation sc uR aR st fuel)
    (h2 : r2 = run_simulation sc uR aR st fuel) : r1 = r2 := by
  rw [h1, h2]

/-- Witness for C10 at a concrete run. -/
theorem C10_witness :
    run_simulation .rateLimiting 1 (1/1000) streamB 30 =
      run_simulation .rateLimiting 1 (1/1000) streamB 30 :=
  C10_deterministic .rateLimiting 1 (1/1000) streamB 30 _ _ rfl rfl

/-- Claim C7 (confirmed): the returned average response time is 0 when
the sample list is empty — in particular whenever no request was ever
admitted — and otherwise is exactly the arithmetic mean of the recorded
samples; the empty case is a local definition, never a division-by-zero
error, and the triple `(avg, processed, dropped)` is what
`run_simulation` returns on a run without exceptions. -/
theorem C7_avg_response_time (sc : Scenario) (uR aR : ℚ) (st : ℕ → ℚ) (fuel : ℕ) :
    ((runFor sc uR aR st fuel).respTimes = [] → avgOf (runFor sc uR aR st fuel) = 0) ∧
    ((runFor sc uR aR st fuel).respTimes ≠ [] →
      avgOf (runFor sc uR aR st fuel) =
        (runFor sc uR aR st fuel).respTimes.sum /
          (runFor sc uR aR st fuel).respTimes.length) ∧
    ((runFor sc uR aR st fuel).errored = false →
      grantCount (runFor sc uR aR st fuel).log = 0 →
      avgOf (runFor sc uR aR st fuel) = 0) ∧
    ((runFor sc uR aR st fuel).errored = false →
      run_simulation sc uR aR st fuel =
        .ok (avgOf (runFor sc uR aR st fuel), (runFor sc uR aR st fuel).processed,
             (runFor sc uR aR st fuel).dropped)) := by
  refine ⟨fun he => by simp [avgOf, he], fun hne => by simp [avgOf, hne], ?_,
    fun herr => by simp [run_simulation, herr]⟩
  intro herr hg
  obtain ⟨-, -, -, -, -, -, -, -, hsync⟩ := inv_runFor sc uR aR st fuel
  have hr := (hsync herr).2.2.2.2
  rw [hg] at hr
  have hlen : (runFor sc uR aR st fuel).respTimes.length = 0 := by omega
  simp [avgOf, List.length_eq_zero.mp hlen]

/-- Witness for C7: a run whose two first arrivals fall beyond the
horizon records no samples and returns average 0; a run with twelve
completed services returns their mean. -/
theorem C7_witness :
    avgOf (runFor .rateLimiting 1 1 streamC 3) = 0 ∧
    avgOf (runFor .rateLimiting 1 (1/1000) streamB 30) =
      (runFor .rateLimiting 1 (1/1000) streamB 30).respTimes.sum /
        (runFor .rateLimiting 1 (1/1000) streamB 30).respTimes.length ∧
    run_simulation .rateLimiting 1 1 streamC 3 =
      .ok (avgOf (runFor .rateLimiting 1 1 streamC 3),
           (runFor .rateLimiting 1 1 streamC 3).processed,
           (runFor .rateLimiting 1 1 streamC 3).dropped) :=
  ⟨(C7_avg_response_time .rateLimiting 1 1 streamC 3).1 (by decide),
   (C7_avg_response_time .rateLimiting 1 (1/1000) streamB 30).2.1 (by decide),
   (C7_avg_response_time .rateLimiting 1 1 streamC 3).2.2.2 (by decide)⟩

/-- Claim C2 (confirmed): `rate_limited_request` drops a Legitimate
request exactly when the in-service count has reached `RATE_LIMIT` at
the decision instant — incrementing the dropped counter by one and
leaving the pool, the queue and the client untouched (no wait) —
whereas any other request (Legitimate under the limit, or any Attack
request, which is never rate-limited) acquires a pool slot when one is
free (starting its service) or else joins the FIFO wait queue; on
service completion the slot is released and the processed counter is
incremented exactly for Legitimate requests, with the response time
recorded. -/
theorem C2_rate_limiting_policy (s : Sim) (w : Who) :
    (w = .legit → RATE_LIMIT ≤ s.users →
      (rate_limited_request w s).1.dropped = s.dropped + 1 ∧
      (rate_limited_request w s).2 = false ∧
      (rate_limited_request w s).1.users = s.users ∧
      (rate_limited_request w s).1.queue = s.queue ∧
      getC (rate_limited_request w s).1 w = getC s w ∧
      (rate_limited_request w s).1.processed = s.processed ∧
      (rate_limited_request w s).1.respTimes = s.respTimes) ∧
    (¬ (w = .legit ∧ RATE_LIMIT ≤ s.users) → s.errored = false → s.users < s.capacity →
      (rate_limited_request w s).2 = true ∧
      (rate_limited_request w s).1.users = s.users + 1 ∧
      (rate_limited_request w s).1.dropped = s.dropped ∧
      (0 ≤ s.stream s.idx →
        getC (rate_limited_request w s).1 w = .inService (s.now + s.stream s.idx) s.now)) ∧
    (¬ (w = .legit ∧ RATE_LIMIT ≤ s.users) → s.errored = false → ¬ s.users < s.capacity →
      (rate_limited_request w s).2 = true ∧
      (rate_limited_request w s).1.users = s.users ∧
      (rate_limited_request w s).1.queue = s.queue ++ [w] ∧
      getC (rate_limited_request w s).1 w = .queued s.now ∧
      (rate_limited_request w s).1.dropped = s.dropped) ∧
    (∀ f arr, getC s w = .inService f arr →
      (execEvent f (.completion w) s).processed =
        s.processed + (if w = .legit then 1 else 0) ∧
      (execEvent f (.completion w) s).respTimes = s.respTimes ++ [f - arr]) := by
  refine ⟨?_, ?_, ?_, ?_⟩
  · intro hwl hlim
    subst hwl
    rw [show rate_limited_request .legit s =
        ({ s with dropped := s.dropped + 1, log := s.log ++ [.droppedReq s.now] }, false) from by
      simp [rate_limited_request, hlim]]
    exact ⟨rfl, rfl, rfl, rfl, getC_congr rfl rfl _, rfl, rfl⟩
  · intro hdc herr hlt
    rw [show rate_limited_request w s = (requestSlot w s.now s, true) from by
      simp only [rate_limited_request]
      rw [if_neg (by simpa using hdc)]]
    rw [requestSlot_grant w s.now s herr hlt]
    rcases sampleService_spec w s.now
        { s with users := s.users + 1, log := s.log ++ [.granted w s.now] }
        herr with ⟨heq, hneg⟩ | ⟨heq, hpos⟩ <;> rw [heq]
    · refine ⟨rfl, by simp [fail], by simp [fail], fun hok => absurd hneg (by
        simpa using not_lt.mpr hok)⟩
    · exact ⟨rfl, by simp, by simp, fun _ => by simp⟩
  · intro hdc herr hge
    rw [show rate_limited_request w s = (requestSlot w s.now s, true) from by
      simp only [rate_limited_request]
      rw [if_neg (by simpa using hdc)]]
    rw [requestSlot_enqueue w s.now s herr hge]
    exact ⟨rfl, by simp, by simp, by simp, by simp⟩
  · intro f arr hginv
    have hg2 : getC ({ s with now := f } : Sim) w = .inService f arr := by
      rw [getC_congr rfl rfl w]
      exact hginv
    rw [show execEvent f (.completion w) s = finishService w { s with now := f } from rfl,
        finishService_eq w { s with now := f } f arr hg2]
    show (match (releaseSlot _).1.scenario with
      | Scenario.rateLimiting => sampleGap w (startAll (releaseSlot _).2 (releaseSlot _).1)
      | Scenario.adaptiveScaling =>
        startAll (releaseSlot _).2
          (scale_resources (sampleGap w (releaseSlot _).1))).processed = _ ∧
      (match (releaseSlot _).1.scenario with
      | Scenario.rateLimiting => sampleGap w (startAll (releaseSlot _).2 (releaseSlot _).1)
      | Scenario.adaptiveScaling =>
        startAll (releaseSlot _).2
          (scale_resources (sampleGap w (releaseSlot _).1))).respTimes = _
    constructor
    · split
      · exact ((sampleGap_frame w _).2.2.2.2.2.1).trans
          (((startAll_frame _ _).2.2.2.2.2.1).trans
            (((grantLoop_frame _ _).2.2.2.2.2.1).trans rfl))
      · exact ((startAll_frame _ _).2.2.2.2.2.1).trans
          (((scale_resources_frame _).2.2.2.2.2.1).trans
            (((sampleGap_frame w _).2.2.2.2.2.1).trans
              (((grantLoop_frame _ _).2.2.2.2.2.1).trans rfl)))
    · split
      · exact ((sampleGap_frame w _).2.2.2.2.2.2.1).trans
          (((startAll_frame _ _).2.2.2.2.2.2.1).trans
            (((grantLoop_frame _ _).2.2.2.2.2.2.1).trans rfl))
      · exact ((startAll_frame _ _).2.2.2.2.2.2.1).trans
          (((scale_resources_frame _).2.2.2.2.2.2.1).trans
            (((sampleGap_frame w _).2.2.2.2.2.2.1).trans
              (((grantLoop_frame _ _).2.2.2.2.2.2.1).trans rfl)))

/-- Witness for C2 at concrete states: a busy server drops a
Legitimate request without queueing it; an idle server admits an Attack
request at once; a busy server queues an Attack request (never drops
it); completing a Legitimate service increments the processed count. -/
theorem C2_witness :
    ((rate_limited_request .legit sDemoBusy).1.dropped = sDemoBusy.dropped + 1 ∧
      (rate_limited_request .legit sDemoBusy).2 = false) ∧
    ((rate_limited_request .attacker sDemoFree).2 = true ∧
      (rate_limited_request .attacker sDemoFree).1.users = sDemoFree.users + 1) ∧
    (rate_limited_request .attacker sDemoBusy).1.queue = sDemoBusy.queue ++ [.attacker] ∧
    (execEvent 3 (.completion .legit) sDemoServing).processed =
      sDemoServing.processed + (if Who.legit = .legit then 1 else 0) := by
  refine ⟨?_, ?_, ?_, ?_⟩
  · have h := (C2_rate_limiting_policy sDemoBusy .legit).1 rfl (by decide)
    exact ⟨h.1, h.2.1⟩
  · have h := (C2_rate_limiting_policy sDemoFree .attacker).2.1 (by decide) (by decide)
      (by decide)
    exact ⟨h.1, h.2.1⟩
  · exact ((C2_rate_limiting_policy sDemoBusy .attacker).2.2.1 (by decide) (by decide)
      (by decide)).2.2.1
  · exact ((C2_rate_limiting_policy sDemoServing .legit).2.2.2 3 1 (by decide)).1

/-- Claim C9, counterexample: `run_simulation` performs no
configuration validation at all.  With the invalid rate `-1` the
simulation environment is constructed and the engine starts with no
error (`initSim` is error-free with an empty log); the failure appears
only once the first event executes — `expovariate(-1)` yields a
negative delay and `env.timeout` raises mid-run — never as a fail-fast
rejection before the run. -/
theorem C9_counterexample :
    (initSim .rateLimiting (-1) 1 streamD).errored = false ∧
    (initSim .rateLimiting (-1) 1 streamD).finished = false ∧
    (initSim .rateLimiting (-1) 1 streamD).log = [] ∧
    (runFor .rateLimiting (-1) 1 streamD 1).errored = true ∧
    raisedError (run_simulation .rateLimiting (-1) 1 streamD 1) = true := by
  decide

/-- Claim C9, amended: `run_simulation` never fails fast — for every
configuration, valid or not, the environment is built and the event
loop starts with no validation (no error, no log, nothing rejected);
a zero legitimate rate raises only when the first gap is sampled during
event processing (`ZeroDivisionError` inside `expovariate`), i.e. the
error surfaces mid-run and is reported to the caller as an exception,
not as a pre-run rejection, and no value is ever clamped. -/
theorem C9_amended (sc : Scenario) (uR aR : ℚ) (st : ℕ → ℚ) :
    (initSim sc uR aR st).errored = false ∧
    (initSim sc uR aR st).finished = false ∧
    (initSim sc uR aR st).log = [] ∧
    (uR = 0 → (runFor sc uR aR st 1).errored = true) := by
  refine ⟨rfl, rfl, rfl, fun h0 => ?_⟩
  subst h0
  rfl

/-- Witness for C9's amended theorem at a concrete configuration. -/
theorem C9_witness :
    (initSim .rateLimiting 0 1 streamD).errored = false ∧
    (runFor .rateLimiting 0 1 streamD 1).errored = true :=
  ⟨(C9_amended .rateLimiting 0 1 streamD).1,
   (C9_amended .rateLimiting 0 1 streamD).2.2.2 rfl⟩

/-! ### Counting scale checks -/

@[simp] lemma scaleChecksAt_nil (t : ℚ) : scaleChecksAt t [] = 0 := rfl

@[simp] lemma scaleChecksAt_append (t : ℚ) (l l2 : List Entry) :
    scaleChecksAt t (l ++ l2) = scaleChecksAt t l + scaleChecksAt t l2 := by
  simp [scaleChecksAt]

@[simp] lemma scaleChecksAt_arrival (t : ℚ) (w : Who) (t2 : ℚ) :
    scaleChecksAt t [.arrival w t2] = 0 := rfl

@[simp] lemma scaleChecksAt_droppedReq (t t2 : ℚ) :
    scaleChecksAt t [.droppedReq t2] = 0 := rfl

@[simp] lemma scaleChecksAt_granted (t : ℚ) (w : Who) (t2 : ℚ) :
    scaleChecksAt t [.granted w t2] = 0 := rfl

@[simp] lemma scaleChecksAt_processedReq (t : ℚ) (w : Who) (t2 : ℚ) :
    scaleChecksAt t [.processedReq w t2] = 0 := rfl

@[simp] lemma scaleChecksAt_scaleCheck (t t2 : ℚ) (q : ℕ) :
    scaleChecksAt t [.scaleCheck t2 q] = if t2 = t then 1 else 0 := by
  simp [scaleChecksAt, List.countP_cons]

@[simp] lemma scaleChecksAt_scaleUp (t t2 : ℚ) : scaleChecksAt t [.scaleUp t2] = 0 := rfl

@[simp] lemma scaleChecksAt_scaleDown (t t2 : ℚ) : scaleChecksAt t [.scaleDown t2] = 0 := rfl

@[simp] lemma scaleChecksAt_pair (t : ℚ) (a b : Entry) :
    scaleChecksAt t [a, b] = scaleChecksAt t [a] + scaleChecksAt t [b] := by
  simp [scaleChecksAt, List.countP_cons]
  omega

lemma scale_resources_scaleChecksAt (s2 : Sim) (h : s2.errored = false) (t : ℚ) :
    scaleChecksAt t (scale_resources s2).log =
      scaleChecksAt t s2.log + (if s2.now = t then 1 else 0) := by
  by_cases hc : s2.scaling = true ∧ QUEUE_THRESHOLD ≤ s2.queue.length
  · rw [scale_resources_yes s2 h hc]
    simp [fail]
  · rw [scale_resources_no s2 h hc]
    simp

/-! ### Named projections of the composite helpers -/

lemma startAll_log (ws : List Who) (s : Sim) : (startAll ws s).log = s.log :=
  (startAll_frame ws s).2.2.2.2.2.2.2.2.1

lemma startAll_now (ws : List Who) (s : Sim) : (startAll ws s).now = s.now :=
  (startAll_frame ws s).2.1

lemma startAll_stream (ws : List Who) (s : Sim) : (startAll ws s).stream = s.stream :=
  (startAll_frame ws s).2.2.1

lemma startAll_idx_le (ws : List Who) (s : Sim) : s.idx ≤ (startAll ws s).idx :=
  (startAll_frame ws s).2.2.2.2.2.2.2.2.2.2.2.2.2.2.1

lemma startAll_rateOf (ws : List Who) (s : Sim) (w : Who) :
    rateOf (startAll ws s) w = rateOf s w :=
  rateOf_congr (startAll_frame ws s).2.2.2.1 (startAll_frame ws s).2.2.2.2.1 w

lemma requestSlot_scaleChecksAt (w : Who) (arr t2 : ℚ) (s : Sim) :
    scaleChecksAt t2 (requestSlot w arr s).log = scaleChecksAt t2 s.log := by
  by_cases herr : s.errored = true
  · rw [show requestSlot w arr s = s from by simp [requestSlot, herr]]
  · have herr2 : s.errored = false := by
      revert herr
      cases s.errored <;> simp
    by_cases hlt : s.users < s.capacity
    · rw [requestSlot_grant w arr s herr2 hlt,
        (sampleService_frame w arr _).2.2.2.2.2.2.2.2.1]
      simp
    · rw [requestSlot_enqueue w arr s herr2 hlt]
      simp

/-- Stronger form of `sampleGap_cases` when the sample is known to
succeed: positive rate and a nonnegative sampled gap. -/
lemma sampleGap_ok (w : Who) (s1 : Sim) (P : Sim → Prop) (herr : s1.errored = false)
    (hrate : rateOf s1 w ≠ 0) (hnn : 0 ≤ s1.stream s1.idx / rateOf s1 w)
    (hok : P (setC { s1 with idx := s1.idx + 1 } w
      (.gap (s1.now + s1.stream s1.idx / rateOf s1 w)))) :
    P (sampleGap w s1) := by
  rcases sampleGap_spec w s1 herr with ⟨heq, hcond⟩ | ⟨heq, -, -⟩ <;> rw [heq]
  · exact absurd ⟨hrate, hnn⟩ hcond
  · exact hok

/-- Claim C5, counterexample: in the Adaptive Scaling run driven by the
constant stream `streamB`, the first request is admitted (granted a
slot) at instant 2, but no scale check runs at instant 2; the spawned
`scale_resources` process runs only at instant 4, when the request's
service completes and its slot is released.  The claimed "immediately
after each request is admitted, an independent scale-check runs" is
false on the code. -/
theorem C5_counterexample :
    grantedAt .legit 2 (runFor .adaptiveScaling 1 (1/1000) streamB 4).log = true ∧
    scaleChecksAt 2 (runFor .adaptiveScaling 1 (1/1000) streamB 4).log = 0 ∧
    scaleChecksAt 4 (runFor .adaptiveScaling 1 (1/1000) streamB 4).log = 1 := by
  decide

/-- Claim C5, amended, correcting both the timing and the effect of the
scale check.  Timing: the check is spawned after the admitted request's
service completes and its slot is released — not immediately after
admission.  Precisely: (a) every service completion at instant `f`
(stated with no queued waiter and the next sample well defined) runs
exactly one scale check at `f`; (b) an arrival — hence an admission —
never runs a scale check at any instant.  Effect: the check never
raises the capacity.  `simpy.Resource.capacity` is a read-only
property, so (c) when the wait queue has reached `QUEUE_THRESHOLD` the
scale-up assignment raises `AttributeError` and aborts the run, with
the capacity unchanged and no scale-down ever scheduled, and below the
threshold the check only logs and changes nothing; consequently (d) in
every actual run, of either scenario, the capacity stays
`SERVER_INITIAL_CAPACITY` throughout, no scale timer is ever pending,
and no scale-up message is ever printed. -/
theorem C5_amended :
    (∀ (s : Sim) (w : Who) (f arr : ℚ), s.errored = false →
      s.scenario = .adaptiveScaling → getC s w = .inService f arr →
      s.queue = [] →
      rateOf s w ≠ 0 → 0 ≤ s.stream s.idx / rateOf s w →
      scaleChecksAt f (execEvent f (.completion w) s).log =
        scaleChecksAt f s.log + 1) ∧
    (∀ (s : Sim) (w : Who) (t t2 : ℚ),
      scaleChecksAt t2 (execEvent t (.arrival w) s).log = scaleChecksAt t2 s.log) ∧
    (∀ s : Sim, s.errored = false →
      (s.scaling = true ∧ QUEUE_THRESHOLD ≤ s.queue.length →
        (scale_resources s).errored = true ∧
        (scale_resources s).capacity = s.capacity ∧
        (scale_resources s).scaleTimers = s.scaleTimers) ∧
      (¬ (s.scaling = true ∧ QUEUE_THRESHOLD ≤ s.queue.length) →
        scale_resources s =
          { s with log := s.log ++ [.scaleCheck s.now s.queue.length] })) ∧
    (∀ (sc : Scenario) (uR aR : ℚ) (st : ℕ → ℚ) (n : ℕ),
      (runFor sc uR aR st n).capacity = SERVER_INITIAL_CAPACITY ∧
      (runFor sc uR aR st n).scaleTimers = [] ∧
      scaleUpCount (runFor sc uR aR st n).log = 0) := by
  refine ⟨?_, ?_, ?_, ?_⟩
  · intro s w f arr herr hsc hg hq hrate hnn
    cases w
    · simp only [getC] at hg
      simp [execEvent, finishService, getC, hg, releaseSlot, hq, hsc]
      refine sampleGap_ok .legit _
        (fun s2 => scaleChecksAt f (scale_resources s2).log = scaleChecksAt f s.log + 1)
        ?_ ?_ ?_ ?_
      · exact herr
      · exact hrate
      · exact hnn
      · show scaleChecksAt f (scale_resources _).log = scaleChecksAt f s.log + 1
        rw [scale_resources_scaleChecksAt _ (by simp [herr]) f]
        simp
    · simp only [getC] at hg
      simp [execEvent, finishService, getC, hg, releaseSlot, hq, hsc]
      refine sampleGap_ok .attacker _
        (fun s2 => scaleChecksAt f (scale_resources s2).log = scaleChecksAt f s.log + 1)
        ?_ ?_ ?_ ?_
      · exact herr
      · exact hrate
      · exact hnn
      · show scaleChecksAt f (scale_resources _).log = scaleChecksAt f s.log + 1
        rw [scale_resources_scaleChecksAt _ (by simp [herr]) f]
        simp
  · intro s w t t2
    show scaleChecksAt t2 (handleArrival w { s with now := t }).log = scaleChecksAt t2 s.log
    rcases scenario_two s with hsc | hsc
    · by_cases hdc : w = .legit ∧ RATE_LIMIT ≤ s.users
      · rw [handleArrival_drop w { s with now := t } hsc hdc.1 hdc.2,
          (sampleGap_frame _ _).2.2.2.2.2.2.2.2.1]
        simp
      · rw [handleArrival_rl_request w { s with now := t } hsc hdc]
        rw [requestSlot_scaleChecksAt]
        simp
    · rw [handleArrival_ad_request w { s with now := t } hsc]
      rw [requestSlot_scaleChecksAt]
      simp
  · intro s herr
    constructor
    · intro hc
      rw [scale_resources_yes s herr hc]
      exact ⟨rfl, rfl, rfl⟩
    · intro hc
      exact scale_resources_no s herr hc
  · intro sc uR aR st n
    exact ⟨(inv_runFor sc uR aR st n).1, (inv_runFor sc uR aR st n).2.2.1,
      (inv_runFor sc uR aR st n).2.2.2.2.2.1⟩

/-- Witness for C5's amended theorem: a completion in `sDemoAdServe`
runs one scale check, an arrival in `sDemoFree` runs none, and the
check over the (hypothetical) threshold-length queue of `sDemoScale`
aborts the run with the capacity and the timers untouched. -/
theorem C5_witness :
    scaleChecksAt 3 (execEvent 3 (.completion .legit) sDemoAdServe).log =
      scaleChecksAt 3 sDemoAdServe.log + 1 ∧
    scaleChecksAt 1 (execEvent 1 (.arrival .legit) sDemoFree).log =
      scaleChecksAt 1 sDemoFree.log ∧
    (scale_resources sDemoScale).errored = true ∧
    (scale_resources sDemoScale).capacity = sDemoScale.capacity ∧
    (scale_resources sDemoScale).scaleTimers = sDemoScale.scaleTimers :=
  ⟨C5_amended.1 sDemoAdServe .legit 3 1 rfl rfl rfl rfl (by decide) (by decide),
   C5_amended.2.1 sDemoFree .legit 1 1,
   (C5_amended.2.2.1 sDemoScale rfl).1 (by decide)⟩

lemma scale_resources_getC (s : Sim) (w : Who) : getC (scale_resources s) w = getC s w :=
  getC_congr (scale_resources_frame s).2.2.2.2.2.2.2.2.2.2.2.2.1
    (scale_resources_frame s).2.2.2.2.2.2.2.2.2.2.2.2.2.1 w

/-- Claim C6, counterexample: with `user_rate = 1` and constant entropy
2 (stream `streamB`) every sampled legitimate inter-arrival gap is
exactly 2, yet consecutive legitimate arrivals are 4 time units apart
(2 units of gap plus 2 units of service): the loop samples the next gap
only after the previous request's handling has completed, so emission
spacing is not the sampled gap alone. -/
theorem C6_counterexample :
    (arrivalTimes .legit (runFor .rateLimiting 1 (1/1000) streamB 30).log).take 2 = [2, 6] ∧
    streamB 1 / rateOf (initSim .rateLimiting 1 (1/1000) streamB) .legit = 2 ∧
    ¬ ((6 : ℚ) - 2 = 2) := by
  decide

/-- Claim C6, amended: the two client loops are sequential, not
independent of handling time — each samples its next inter-arrival gap
only when its current request has been fully handled, anchored at the
instant handling ends.  Precisely: (a) in the Rate-Limiting scenario a
dropped legitimate request does not suspend, so the loop resamples at
the arrival instant `t` itself and next wakes at `t` plus the fresh
gap; (b) when an admitted request's service completes at instant `f`
(stated with no queued waiter), the owner loop next wakes at `f` plus
the fresh gap — the previous service duration therefore shifts every
later emission; (c) the loops stop only through the engine: when the
earliest pending event is at or beyond `SIM_TIME` the run finishes with
the clock at the horizon and the state otherwise untouched. -/
theorem C6_amended :
    (∀ (s : Sim) (t : ℚ), s.scenario = .rateLimiting → s.errored = false →
      RATE_LIMIT ≤ s.users → s.userRate ≠ 0 → 0 ≤ s.stream s.idx / s.userRate →
      getC (execEvent t (.arrival .legit) s) .legit =
        .gap (t + s.stream s.idx / s.userRate)) ∧
    (∀ (s : Sim) (w : Who) (f arr : ℚ), s.errored = false →
      getC s w = .inService f arr → s.queue = [] →
      rateOf s w ≠ 0 → 0 ≤ s.stream s.idx / rateOf s w →
      getC (execEvent f (.completion w) s) w =
        .gap (f + s.stream s.idx / rateOf s w)) ∧
    (∀ (s : Sim) (t : ℚ) (ev : Ev), s.finished = false → nextEvent s = some (t, ev) →
      SIM_TIME ≤ t → step s = { s with now := SIM_TIME, finished := true }) := by
  refine ⟨?_, ?_, ?_⟩
  · intro s t hsc herr hlim hrate hnn
    show getC (handleArrival .legit { s with now := t }) .legit =
      .gap (t + s.stream s.idx / s.userRate)
    rw [handleArrival_drop .legit { s with now := t } hsc rfl hlim]
    refine sampleGap_ok .legit _
      (fun s2 => getC s2 .legit = .gap (t + s.stream s.idx / s.userRate)) ?_ ?_ ?_ ?_
    · exact herr
    · exact hrate
    · exact hnn
    · exact rfl
  · intro s w f arr herr hg hq hrate hnn
    cases w
    · simp only [getC] at hg
      rcases scenario_two s with hsc | hsc
      · simp [execEvent, finishService, getC, hg, releaseSlot, hq, hsc]
        refine sampleGap_ok .legit _
          (fun s2 => getC s2 .legit = .gap (f + s.stream s.idx / rateOf s .legit)) ?_ ?_ ?_ ?_
        · exact herr
        · exact hrate
        · exact hnn
        · exact rfl
      · simp [execEvent, finishService, getC, hg, releaseSlot, hq, hsc]
        refine sampleGap_ok .legit _
          (fun s2 => getC (scale_resources s2) .legit =
            .gap (f + s.stream s.idx / rateOf s .legit)) ?_ ?_ ?_ ?_
        · exact herr
        · exact hrate
        · exact hnn
        · show getC (scale_resources _) .legit = _
          rw [scale_resources_getC]
          exact rfl
    · simp only [getC] at hg
      rcases scenario_two s with hsc | hsc
      · simp [execEvent, finishService, getC, hg, releaseSlot, hq, hsc]
        refine sampleGap_ok .attacker _
          (fun s2 => getC s2 .attacker =
            .gap (f + s.stream s.idx / rateOf s .attacker)) ?_ ?_ ?_ ?_
        · exact herr
        · exact hrate
        · exact hnn
        · exact rfl
      · simp [execEvent, finishService, getC, hg, releaseSlot, hq, hsc]
        refine sampleGap_ok .attacker _
          (fun s2 => getC (scale_resources s2) .attacker =
            .gap (f + s.stream s.idx / rateOf s .attacker)) ?_ ?_ ?_ ?_
        · exact herr
        · exact hrate
        · exact hnn
        · show getC (scale_resources _) .attacker = _
          rw [scale_resources_getC]
          exact rfl
  · intro s t ev hfin hne hts
    simp [step, hfin, hne, hts]

/-- Witness for C6's amended theorem: a dropped arrival in `sDemoBusy`
resamples at the drop instant, the completion in `sDemoServing`
resamples at the completion instant, and `sDemoHorizon` (earliest event
at 100 ≥ `SIM_TIME`) finishes at the horizon. -/
theorem C6_witness :
    getC (execEvent 1 (.arrival .legit) sDemoBusy) .legit =
      .gap (1 + sDemoBusy.stream sDemoBusy.idx / sDemoBusy.userRate) ∧
    getC (execEvent 3 (.completion .legit) sDemoServing) .legit =
      .gap (3 + sDemoServing.stream sDemoServing.idx / rateOf sDemoServing .legit) ∧
    step sDemoHorizon = { sDemoHorizon with now := SIM_TIME, finished := true } :=
  ⟨C6_amended.1 sDemoBusy 1 rfl rfl (by decide) (by decide) (by decide),
   C6_amended.2.1 sDemoServing .legit 3 1 rfl rfl rfl (by decide) (by decide),
   C6_amended.2.2 sDemoHorizon 100 (.arrival .legit) rfl (by decide) (by decide)⟩

end DDoSSim
